import Mathlib

/-!
# Verbs provider: send/reap data path and connection-management calls

A shallow embedding of the inline data-path helpers of
`prov/verbs/src/fi_verbs.h` and of the connection-management calls of
`prov/verbs/src/verbs_cm.c`.

Calls that leave the translated code (the device's `post_send` and `poll_cq`,
the buffer pool, `rdma_connect`, ...) are answered from explicit reply
scripts carried in the state, and every such call is appended to a trace.
A call made when its script is exhausted has no answer: the function then
yields `none` as return value together with the state reached so far.
-/

namespace Verbs

/-! ## Error numbers -/

/-- Error numbers that the sources use but do not define: `ENOMEM` comes from
the platform's `errno.h`, the `FI_` values from `rdma/fi_errno.h`.  They are a
parameter of every translated function. -/
structure errno_h where
  ENOMEM : Int
  FI_SUCCESS : Int
  FI_EAGAIN : Int
  FI_EINVAL : Int
  FI_ENOMEM : Int
  FI_ETOOSMALL : Int
deriving DecidableEq, Repr

/-- The values on Linux, where `FI_EAGAIN`, `FI_EINVAL` and `FI_ENOMEM` are the
errno values of the same name. -/
def linux : errno_h :=
  { ENOMEM := 12, FI_SUCCESS := 0, FI_EAGAIN := 11, FI_EINVAL := 22,
    FI_ENOMEM := 12, FI_ETOOSMALL := 257 }

/-! ## Data path: state -/

/-- `#define VERBS_NO_COMP_FLAG ((uint64_t)-1)`. -/
def VERBS_NO_COMP_FLAG : Nat := 2 ^ 64 - 1

/-- A work completion (`struct ibv_wc` of libibverbs).  The translated code
reads `wr_id` only and copies the structure as a whole. -/
structure ibv_wc where
  wr_id : Nat
  status : Nat
  opcode : Nat
  vendor_err : Nat
  byte_len : Nat
  imm_data : Nat
  qp_num : Nat
  src_qp : Nat
  wc_flags : Nat
deriving DecidableEq, Repr

/-- Cached completion: `struct fi_ibv_wce` without its list link. -/
structure fi_ibv_wce where
  wc : ibv_wc
deriving DecidableEq, Repr

/-- One answer of `domain->post_send`: its return value and the value of
`errno` once it has returned. -/
structure post_reply where
  ret : Int
  errno : Int
deriving DecidableEq, Repr

/-- One answer of `domain->poll_cq`: its return value and the completions it
stores at the start of the caller's array. -/
structure poll_reply where
  ret : Int
  wc : List ibv_wc
deriving DecidableEq, Repr

/-- Calls that leave the translated data-path code. -/
inductive verbs_call where
  | post_send
  | poll_cq (num_entries : Nat)
  | buf_alloc
  | lock_acquire
  | lock_release
deriving DecidableEq, Repr

/-- State seen by the data-path helpers: the pending answers of the device
and of the buffer pool, `errno`, the completion cache `cq->wcq`, and the
trace of calls made so far. -/
structure verbs_state where
  posts : List post_reply
  polls : List poll_reply
  allocs : List Bool
  errno : Int
  wcq : List fi_ibv_wce
  trace : List verbs_call
deriving DecidableEq, Repr

/-- Calls appended to the trace between state `s` and a later state `t`. -/
def new_calls (s t : verbs_state) : List verbs_call :=
  t.trace.drop s.trace.length

/-! ## Data path: functions -/

/-- `fi_ibv_handle_post`.  `ret` is a C `int`; over that range `-abs(ret)` is
again an `int`, so the result is computed in the integers. -/
def fi_ibv_handle_post (E : errno_h) (errno : Int) (ret : Int) : Int :=
  if ret = -E.ENOMEM ∨ ret = E.ENOMEM then
    -E.FI_EAGAIN
  else if ret = -1 then
    if errno = E.ENOMEM then -E.FI_EAGAIN else -errno
  else
    -|ret|

/-- `fi_ibv_process_wc`. -/
def fi_ibv_process_wc (wc : ibv_wc) : Int :=
  if wc.wr_id = VERBS_NO_COMP_FLAG then 0 else 1

/-- `domain->post_send(ep->ibv_qp, wr, &bad_wr)`: the call is traced and takes
the next answer of the device. -/
def post_send (s : verbs_state) : Option Int × verbs_state :=
  match s.posts with
  | [] => (none, { s with trace := s.trace ++ [verbs_call.post_send] })
  | r :: rest =>
    (some r.ret, { s with posts := rest, errno := r.errno,
                          trace := s.trace ++ [verbs_call.post_send] })

/-- Loop of `fi_ibv_process_wc_poll_new`, entered when `wc->wr_id` is
`VERBS_NO_COMP_FLAG`: `while ((ret = domain->poll_cq(cq->cq, 1, wc)) > 0)`.
The first argument is the list of pending poll answers. -/
def fi_ibv_process_wc_poll_new_loop :
    List poll_reply → verbs_state → ibv_wc → Option Int × ibv_wc × verbs_state
  | [], s, wc =>
    (none, wc, { s with polls := [], trace := s.trace ++ [verbs_call.poll_cq 1] })
  | r :: rest, s, wc =>
    let s1 := { s with polls := rest, trace := s.trace ++ [verbs_call.poll_cq 1] }
    let wc1 := ((r.wc.take 1).head?).getD wc
    if 0 < r.ret then
      if wc1.wr_id ≠ VERBS_NO_COMP_FLAG then (some 1, wc1, s1)
      else fi_ibv_process_wc_poll_new_loop rest s1 wc1
    else (some r.ret, wc1, s1)

/-- `fi_ibv_process_wc_poll_new`: returns the return value, the contents of
`*wc` and the state. -/
def fi_ibv_process_wc_poll_new (s : verbs_state) (wc : ibv_wc) :
    Option Int × ibv_wc × verbs_state :=
  if wc.wr_id = VERBS_NO_COMP_FLAG then
    fi_ibv_process_wc_poll_new_loop s.polls s wc
  else (some 1, wc, s)

/-- `ofi_buf_alloc(cq->wce_pool)`: whether the pool hands out a buffer. -/
def ofi_buf_alloc (s : verbs_state) : Option Bool × verbs_state :=
  match s.allocs with
  | [] => (none, { s with trace := s.trace ++ [verbs_call.buf_alloc] })
  | a :: rest =>
    (some a, { s with allocs := rest, trace := s.trace ++ [verbs_call.buf_alloc] })

/-- `fi_ibv_wc_2_wce`: the return value and the entry stored in `*wce`. -/
def fi_ibv_wc_2_wce (E : errno_h) (s : verbs_state) (wc : ibv_wc) :
    Option (Int × Option fi_ibv_wce) × verbs_state :=
  match ofi_buf_alloc s with
  | (none, s1) => (none, s1)
  | (some false, s1) => (some (-E.FI_ENOMEM, none), s1)
  | (some true, s1) => (some (E.FI_SUCCESS, some { wc := wc }), s1)

/-- Body of `for (i = 0; i < ret; i++)` in `fi_ibv_poll_reap_unsig_cq`, over
the entries `wc[0] .. wc[ret-1]`.  The Boolean is `false` when the pool
script ran out.  A NULL `wce` only comes with a non-zero return value of
`fi_ibv_wc_2_wce`. -/
def fi_ibv_poll_reap_unsig_cq_for (E : errno_h) :
    List ibv_wc → verbs_state → Bool × verbs_state
  | [], s => (true, s)
  | wc :: wcs, s =>
    if fi_ibv_process_wc wc = 0 then
      fi_ibv_poll_reap_unsig_cq_for E wcs s
    else
      match fi_ibv_wc_2_wce E s wc with
      | (none, s1) => (false, s1)
      | (some (ret, wce), s1) =>
        if ret = 0 then
          match wce with
          | some e => fi_ibv_poll_reap_unsig_cq_for E wcs { s1 with wcq := s1.wcq ++ [e] }
          | none => fi_ibv_poll_reap_unsig_cq_for E wcs s1
        else fi_ibv_poll_reap_unsig_cq_for E wcs s1

/-- The `while (1)` loop of `fi_ibv_poll_reap_unsig_cq`.  The first argument
is the list of pending poll answers; `poll_cq(cq->cq, 10, wc)` stores at most
ten entries and the loop body reads the first `ret` of them (array slots the
device did not store into are not read here). -/
def fi_ibv_poll_reap_unsig_cq_while (E : errno_h) :
    List poll_reply → verbs_state → Option Int × verbs_state
  | [], s =>
    (none, { s with polls := [], trace := s.trace ++ [verbs_call.poll_cq 10] })
  | r :: rest, s =>
    let s1 := { s with polls := rest, trace := s.trace ++ [verbs_call.poll_cq 10] }
    if r.ret ≤ 0 then
      (some r.ret, { s1 with trace := s1.trace ++ [verbs_call.lock_release] })
    else
      match fi_ibv_poll_reap_unsig_cq_for E ((r.wc.take 10).take r.ret.toNat) s1 with
      | (false, s2) => (none, s2)
      | (true, s2) => fi_ibv_poll_reap_unsig_cq_while E rest s2

/-- `fi_ibv_poll_reap_unsig_cq`. -/
def fi_ibv_poll_reap_unsig_cq (E : errno_h) (s : verbs_state) :
    Option Int × verbs_state :=
  fi_ibv_poll_reap_unsig_cq_while E s.polls
    { s with trace := s.trace ++ [verbs_call.lock_acquire] }

/-- `fi_ibv_send_poll_cq_if_needed`. -/
def fi_ibv_send_poll_cq_if_needed (E : errno_h) (s : verbs_state) :
    Option Int × verbs_state :=
  match post_send s with
  | (none, s1) => (none, s1)
  | (some ret, s1) =>
    if ret ≠ 0 then
      if fi_ibv_handle_post E s1.errno ret = -E.FI_EAGAIN then
        match fi_ibv_poll_reap_unsig_cq E s1 with
        | (none, s2) => (none, s2)
        | (some ret2, s2) =>
          if ret2 ≠ 0 then (some (-E.FI_EAGAIN), s2)
          else
            match post_send s2 with
            | (none, s3) => (none, s3)
            | (some ret3, s3) => (some (fi_ibv_handle_post E s3.errno ret3), s3)
      else (some (fi_ibv_handle_post E s1.errno ret), s1)
    else (some ret, s1)

/-- Completions for which the application asked for a completion. -/
def requested (wcs : List ibv_wc) : List ibv_wc :=
  wcs.filter (fun w => decide (w.wr_id ≠ VERBS_NO_COMP_FLAG))

/-- The answer of a poll that delivers the batch `b`. -/
def batch_reply (b : List ibv_wc) : poll_reply := { ret := b.length, wc := b }

/-! ## Connection management: data -/

/-- `#define FI_IBV_CM_DATA_SIZE (56)`. -/
def FI_IBV_CM_DATA_SIZE : Nat := 56

/-- `sizeof(struct fi_ibv_cm_data_hdr)`: a `uint8_t` followed by a flexible
array member. -/
def sizeof_fi_ibv_cm_data_hdr : Nat := 1

/-- `sizeof(struct fi_ibv_xrc_cm_data)`: `uint8_t`, `uint8_t`, `uint16_t`,
`uint32_t`, `uint32_t`, which need no padding. -/
def sizeof_fi_ibv_xrc_cm_data : Nat := 1 + 1 + 2 + 4 + 4

/-- `#define VERBS_CM_DATA_SIZE (FI_IBV_CM_DATA_SIZE - sizeof(struct fi_ibv_cm_data_hdr))`. -/
def VERBS_CM_DATA_SIZE : Nat := FI_IBV_CM_DATA_SIZE - sizeof_fi_ibv_cm_data_hdr

/-- `#define VERBS_CONN_TAG_INVALID 0xFFFFFFFF`. -/
def VERBS_CONN_TAG_INVALID : Nat := 0xFFFFFFFF

/-- Range of `size_t`. -/
def SIZE_MAX_succ : Nat := 2 ^ 64

/-- Limits of `rdma/rdma_cma.h` that the sources use but do not define. -/
structure rdma_cma_h where
  RDMA_MAX_RESP_RES : Nat
  RDMA_MAX_INIT_DEPTH : Nat
deriving DecidableEq, Repr

/-- The values of librdmacm. -/
def librdmacm : rdma_cma_h := { RDMA_MAX_RESP_RES := 0xFF, RDMA_MAX_INIT_DEPTH := 0xFF }

/-- `struct fi_ibv_cm_data_hdr`: the length byte and the bytes stored behind
it. -/
structure fi_ibv_cm_data_hdr where
  size : Nat
  data : List Nat
deriving DecidableEq, Repr

/-- Bytes of a `struct fi_ibv_cm_data_hdr` buffer, in memory order. -/
def cm_hdr_bytes (h : fi_ibv_cm_data_hdr) : List Nat := h.size :: h.data

/-- The twelve bytes of a `struct fi_ibv_xrc_cm_data`: either as `malloc` left
them, or as `fi_ibv_set_xrc_cm_data` (not part of these sources) leaves them
when called with the given arguments. -/
inductive xrc_hdr where
  | uninit
  | set (reciprocal : Nat) (conn_tag : Nat) (port : Nat) (param : Nat)
deriving DecidableEq, Repr

/-- Buffer built by `fi_ibv_msg_alloc_xrc_params`: a `struct
fi_ibv_xrc_cm_data` and the bytes copied behind it (at `cm_data + 1`). -/
structure xrc_cm_buf where
  hdr : xrc_hdr
  body : List Nat
deriving DecidableEq, Repr

/-- Memory a `private_data` pointer refers to. -/
inductive cm_buf where
  | hdr (h : fi_ibv_cm_data_hdr)
  | xrc (x : xrc_cm_buf)
deriving DecidableEq, Repr

/-- `struct rdma_conn_param` of librdmacm.  A field is `none` as long as
nothing has been stored in it. -/
structure rdma_conn_param where
  private_data : Option cm_buf
  private_data_len : Option Nat
  responder_resources : Option Nat
  initiator_depth : Option Nat
  flow_control : Option Nat
  retry_count : Option Nat
  rnr_retry_count : Option Nat
  srq : Option Nat
  qp_num : Option Nat
deriving DecidableEq, Repr

/-- `struct rdma_conn_param conn_param = { 0 };`. -/
def rdma_conn_param_zero : rdma_conn_param :=
  { private_data := none, private_data_len := some 0, responder_resources := some 0,
    initiator_depth := some 0, flow_control := some 0, retry_count := some 0,
    rnr_retry_count := some 0, srq := some 0, qp_num := some 0 }

/-- `struct rdma_conn_param conn_param;` without initialiser. -/
def rdma_conn_param_uninit : rdma_conn_param :=
  { private_data := none, private_data_len := none, responder_resources := none,
    initiator_depth := none, flow_control := none, retry_count := none,
    rnr_retry_count := none, srq := none, qp_num := none }

/-- Endpoint types of `enum fi_ep_type`. -/
inductive fi_ep_type where
  | FI_EP_UNSPEC
  | FI_EP_MSG
  | FI_EP_DGRAM
  | FI_EP_RDM
deriving DecidableEq, Repr

/-- Protocols of `rdma/fabric.h` by name; `other` stands for the remaining
ones. -/
inductive fi_protocol where
  | FI_PROTO_UNSPEC
  | FI_PROTO_RDMA_CM_IB_RC
  | FI_PROTO_RDMA_CM_IB_XRC
  | other (n : Nat)
deriving DecidableEq, Repr

/-- `struct fi_ep_attr`: the fields read here. -/
structure fi_ep_attr where
  type : fi_ep_type
  protocol : fi_protocol
deriving DecidableEq, Repr

/-- `struct fi_info`: the field read here (`ep_attr` may be NULL). -/
structure fi_info where
  ep_attr : Option fi_ep_attr
deriving DecidableEq, Repr

/-- `struct fi_ibv_xrc_conn_info`. -/
structure fi_ibv_xrc_conn_info where
  conn_tag : Nat
  is_reciprocal : Nat
  ini_qpn : Nat
  conn_data : Nat
  port : Nat
deriving DecidableEq, Repr

/-- `struct fi_ibv_connreq`. -/
structure fi_ibv_connreq where
  is_xrc : Bool
  xrc : fi_ibv_xrc_conn_info
deriving DecidableEq, Repr

/-- `struct fi_ibv_ep`: `id_qp` says whether `ep->id->qp` is set, `srq_ep`
whether `ep->srq_ep` is set; `info` may be NULL. -/
structure fi_ibv_ep where
  id_qp : Bool
  srq_ep : Bool
  info : Option fi_info
deriving DecidableEq, Repr

/-- `struct fi_ibv_xrc_ep_conn_setup`: the field written here. -/
structure fi_ibv_xrc_ep_conn_setup where
  conn_tag : Nat
deriving DecidableEq, Repr

/-- `struct fi_ibv_xrc_ep`. -/
structure fi_ibv_xrc_ep where
  base_ep : fi_ibv_ep
  srqn : Nat
  conn_setup : Option fi_ibv_xrc_ep_conn_setup
deriving DecidableEq, Repr

/-- Calls that leave the translated connection-management code. -/
inductive cm_call where
  | fi_control_enable
  | rdma_connect (conn_param : rdma_conn_param)
  | rdma_accept (conn_param : rdma_conn_param)
  | rdma_reject (private_data : cm_buf) (private_data_len : Nat)
  | malloc (size : Nat)
  | free_cm_data
  | free_connreq
  | calloc_conn_setup
  | eq_lock_acquire
  | eq_lock_release
  | fi_ibv_eq_set_xrc_conn_tag
  | fi_ibv_connect_xrc (reciprocal : Nat) (param : xrc_cm_buf) (paramlen : Nat)
  | fi_ibv_accept_xrc (reciprocal : Nat) (param : xrc_cm_buf) (paramlen : Nat)
deriving DecidableEq, Repr

/-- Answers of the calls that leave the connection-management code; each is
made at most once per translated call.  `rdma_ret` and `errno` answer
`rdma_connect`, `rdma_accept` or `rdma_reject`; `xrc_ret` answers
`fi_ibv_connect_xrc` or `fi_ibv_accept_xrc`; `conn_tag` is the tag found in
`conn_setup` after `fi_ibv_eq_set_xrc_conn_tag`. -/
structure cm_env where
  fi_control_ret : Int
  rdma_ret : Int
  errno : Int
  malloc_ok : Bool
  calloc_ok : Bool
  conn_tag : Nat
  xrc_ret : Int
deriving DecidableEq, Repr

/-! ## Connection management: functions -/

/-- `FI_IBV_EP_TYPE(info)`. -/
def FI_IBV_EP_TYPE (info : Option fi_info) : fi_ep_type :=
  match info with
  | some i =>
    match i.ep_attr with
    | some a => a.type
    | none => fi_ep_type.FI_EP_MSG
  | none => fi_ep_type.FI_EP_MSG

/-- `FI_IBV_EP_PROTO(info)`. -/
def FI_IBV_EP_PROTO (info : Option fi_info) : fi_protocol :=
  match info with
  | some i =>
    match i.ep_attr with
    | some a => a.protocol
    | none => fi_protocol.FI_PROTO_UNSPEC
  | none => fi_protocol.FI_PROTO_UNSPEC

/-- `fi_ibv_is_xrc`. -/
def fi_ibv_is_xrc (info : Option fi_info) : Bool :=
  decide (FI_IBV_EP_TYPE info = fi_ep_type.FI_EP_MSG) &&
  decide (FI_IBV_EP_PROTO info = fi_protocol.FI_PROTO_RDMA_CM_IB_XRC)

/-- `fi_ibv_msg_ep_prepare_cm_data`: `param` holds the bytes at the caller's
pointer. -/
def fi_ibv_msg_ep_prepare_cm_data (param : List Nat) (param_size : Nat) :
    fi_ibv_cm_data_hdr :=
  { size := param_size % 256, data := param.take (param_size % 256) }

/-- `fi_ibv_ep_prepare_rdma_cm_param`. -/
def fi_ibv_ep_prepare_rdma_cm_param (R : rdma_cma_h) (conn_param : rdma_conn_param)
    (cm_hdr : fi_ibv_cm_data_hdr) (cm_hdr_data_size : Nat) : rdma_conn_param :=
  { conn_param with
    private_data := some (cm_buf.hdr cm_hdr)
    private_data_len := some (cm_hdr_data_size % 256)
    responder_resources := some R.RDMA_MAX_RESP_RES
    initiator_depth := some R.RDMA_MAX_INIT_DEPTH
    flow_control := some 1
    rnr_retry_count := some 7 }

/-- `rdma_xxx(...) ? -errno : 0`. -/
def rdma_result (env : cm_env) : Int :=
  if env.rdma_ret ≠ 0 then -env.errno else 0

/-- `fi_ibv_msg_ep_connect`: return value and calls made (the two address
look-ups only feed log messages and are left out). -/
def fi_ibv_msg_ep_connect (E : errno_h) (R : rdma_cma_h) (env : cm_env)
    (ep : fi_ibv_ep) (param : List Nat) (paramlen : Nat) : Int × List cm_call :=
  if paramlen > VERBS_CM_DATA_SIZE then (-E.FI_EINVAL, [])
  else if !ep.id_qp && decide (env.fi_control_ret ≠ 0) then
    (env.fi_control_ret, [cm_call.fi_control_enable])
  else
    let enable := if ep.id_qp then [] else [cm_call.fi_control_enable]
    let cm_hdr := fi_ibv_msg_ep_prepare_cm_data param paramlen
    let p1 := fi_ibv_ep_prepare_rdma_cm_param R rdma_conn_param_zero cm_hdr
      (sizeof_fi_ibv_cm_data_hdr + paramlen)
    let p2 := { p1 with retry_count := some 15 }
    let p3 := if ep.srq_ep then { p2 with srq := some 1 } else p2
    (rdma_result env, enable ++ [cm_call.rdma_connect p3])

/-- `fi_ibv_msg_ep_accept`. -/
def fi_ibv_msg_ep_accept (E : errno_h) (R : rdma_cma_h) (env : cm_env)
    (ep : fi_ibv_ep) (param : List Nat) (paramlen : Nat) : Int × List cm_call :=
  if paramlen > VERBS_CM_DATA_SIZE then (-E.FI_EINVAL, [])
  else if !ep.id_qp && decide (env.fi_control_ret ≠ 0) then
    (env.fi_control_ret, [cm_call.fi_control_enable])
  else
    let enable := if ep.id_qp then [] else [cm_call.fi_control_enable]
    let cm_hdr := fi_ibv_msg_ep_prepare_cm_data param paramlen
    let p1 := fi_ibv_ep_prepare_rdma_cm_param R rdma_conn_param_uninit cm_hdr
      (sizeof_fi_ibv_cm_data_hdr + paramlen)
    let p2 := if ep.srq_ep then { p1 with srq := some 1 } else p1
    if env.rdma_ret ≠ 0 then
      (-env.errno, enable ++ [cm_call.rdma_accept p2])
    else
      (0, enable ++ [cm_call.rdma_accept p2, cm_call.free_connreq])

/-- `fi_ibv_msg_alloc_xrc_params`: return value, `*adjusted_param`,
`*paramlen` and calls made.  `param` holds the bytes at the caller's
pointer. -/
def fi_ibv_msg_alloc_xrc_params (E : errno_h) (env : cm_env) (param : List Nat)
    (paramlen : Nat) : Int × Option xrc_cm_buf × Nat × List cm_call :=
  let cm_datalen := (sizeof_fi_ibv_xrc_cm_data + paramlen) % SIZE_MAX_succ
  if cm_datalen > FI_IBV_CM_DATA_SIZE then (-E.FI_EINVAL, none, paramlen, [])
  else if !env.malloc_ok then
    (-E.FI_ENOMEM, none, paramlen, [cm_call.malloc cm_datalen])
  else
    let body := if paramlen ≠ 0 then param.take paramlen else []
    (E.FI_SUCCESS, some { hdr := xrc_hdr.uninit, body := body }, cm_datalen,
      [cm_call.malloc cm_datalen])

/-- `fi_ibv_msg_xrc_ep_reject`.  A NULL `cm_data` only comes with a non-zero
return value of the allocation. -/
def fi_ibv_msg_xrc_ep_reject (E : errno_h) (env : cm_env) (connreq : fi_ibv_connreq)
    (param : List Nat) (paramlen : Nat) : Int × List cm_call :=
  match fi_ibv_msg_alloc_xrc_params E env param paramlen with
  | (ret, none, _, calls) => (ret, calls)
  | (ret, some cm_data, paramlen1, calls) =>
    if ret ≠ 0 then (ret, calls)
    else
      let cm_data1 := { cm_data with
        hdr := xrc_hdr.set connreq.xrc.is_reciprocal connreq.xrc.conn_tag
                 connreq.xrc.port 0 }
      (rdma_result env,
        calls ++ [cm_call.rdma_reject (cm_buf.xrc cm_data1) (paramlen1 % 256),
                  cm_call.free_cm_data])

/-- `fi_ibv_msg_ep_reject`. -/
def fi_ibv_msg_ep_reject (E : errno_h) (env : cm_env) (connreq : fi_ibv_connreq)
    (param : List Nat) (paramlen : Nat) : Int × List cm_call :=
  if paramlen > VERBS_CM_DATA_SIZE then (-E.FI_EINVAL, [])
  else
    let cm_hdr := fi_ibv_msg_ep_prepare_cm_data param paramlen
    let len := (sizeof_fi_ibv_cm_data_hdr + paramlen) % 256
    if connreq.is_xrc then
      ((fi_ibv_msg_xrc_ep_reject E env connreq (cm_hdr_bytes cm_hdr) len).1,
       (fi_ibv_msg_xrc_ep_reject E env connreq (cm_hdr_bytes cm_hdr) len).2 ++
         [cm_call.free_connreq])
    else
      (rdma_result env,
        [cm_call.rdma_reject (cm_buf.hdr cm_hdr) len, cm_call.free_connreq])

/-- `fi_ibv_msg_xrc_cm_common_verify`. -/
def fi_ibv_msg_xrc_cm_common_verify (E : errno_h) (env : cm_env) (ep : fi_ibv_xrc_ep)
    (paramlen : Nat) : Int × List cm_call :=
  if !fi_ibv_is_xrc ep.base_ep.info then (-E.FI_EINVAL, [])
  else if ep.srqn = 0 ∧ env.fi_control_ret ≠ 0 then
    (env.fi_control_ret, [cm_call.fi_control_enable])
  else
    let enable := if ep.srqn = 0 then [cm_call.fi_control_enable] else []
    if paramlen > VERBS_CM_DATA_SIZE - sizeof_fi_ibv_xrc_cm_data then
      (-E.FI_EINVAL, enable)
    else (E.FI_SUCCESS, enable)

/-- `fi_ibv_msg_xrc_ep_connect`: return value, the endpoint as the stores of
this function leave it, and the calls made.  Of the callees that are not part
of these sources only the return value and the tag they leave are taken. -/
def fi_ibv_msg_xrc_ep_connect (E : errno_h) (env : cm_env) (xrc_ep : fi_ibv_xrc_ep)
    (param : List Nat) (paramlen : Nat) : Int × fi_ibv_xrc_ep × List cm_call :=
  match fi_ibv_msg_xrc_cm_common_verify E env xrc_ep paramlen with
  | (ret, calls) =>
    if ret ≠ 0 then (ret, xrc_ep, calls)
    else
      let cm_hdr := fi_ibv_msg_ep_prepare_cm_data param paramlen
      let paramlen1 := (paramlen + sizeof_fi_ibv_cm_data_hdr) % SIZE_MAX_succ
      match fi_ibv_msg_alloc_xrc_params E env (cm_hdr_bytes cm_hdr) paramlen1 with
      | (ret1, none, _, calls1) => (ret1, xrc_ep, calls ++ calls1)
      | (ret1, some adjusted_param, paramlen2, calls1) =>
        if ret1 ≠ 0 then (ret1, xrc_ep, calls ++ calls1)
        else if !env.calloc_ok then
          (-E.FI_ENOMEM, { xrc_ep with conn_setup := none },
            calls ++ calls1 ++ [cm_call.calloc_conn_setup, cm_call.free_cm_data])
        else
          (env.xrc_ret,
            { xrc_ep with conn_setup := some { conn_tag := env.conn_tag } },
            calls ++ calls1 ++
              [cm_call.calloc_conn_setup, cm_call.eq_lock_acquire,
               cm_call.fi_ibv_eq_set_xrc_conn_tag, cm_call.eq_lock_release,
               cm_call.fi_ibv_connect_xrc 0 adjusted_param paramlen2,
               cm_call.free_cm_data])

/-- `fi_ibv_msg_xrc_ep_accept`. -/
def fi_ibv_msg_xrc_ep_accept (E : errno_h) (env : cm_env) (xrc_ep : fi_ibv_xrc_ep)
    (param : List Nat) (paramlen : Nat) : Int × List cm_call :=
  match fi_ibv_msg_xrc_cm_common_verify E env xrc_ep paramlen with
  | (ret, calls) =>
    if ret ≠ 0 then (ret, calls)
    else
      let cm_hdr := fi_ibv_msg_ep_prepare_cm_data param paramlen
      let paramlen1 := (paramlen + sizeof_fi_ibv_cm_data_hdr) % SIZE_MAX_succ
      match fi_ibv_msg_alloc_xrc_params E env (cm_hdr_bytes cm_hdr) paramlen1 with
      | (ret1, none, _, calls1) => (ret1, calls ++ calls1)
      | (ret1, some adjusted_param, paramlen2, calls1) =>
        if ret1 ≠ 0 then (ret1, calls ++ calls1)
        else
          (env.xrc_ret,
            calls ++ calls1 ++
              [cm_call.fi_ibv_accept_xrc 0 adjusted_param paramlen2,
               cm_call.free_cm_data])

/-- Private data a call hands to rdma_cm from a generic header buffer: the
length passed and the first that many bytes of the buffer. -/
def handed_private_data : cm_call → Option (Nat × List Nat)
  | cm_call.rdma_connect p =>
    match p.private_data, p.private_data_len with
    | some (cm_buf.hdr h), some n => some (n, (cm_hdr_bytes h).take n)
    | _, _ => none
  | cm_call.rdma_accept p =>
    match p.private_data, p.private_data_len with
    | some (cm_buf.hdr h), some n => some (n, (cm_hdr_bytes h).take n)
    | _, _ => none
  | cm_call.rdma_reject (cm_buf.hdr h) n => some (n, (cm_hdr_bytes h).take n)
  | _ => none

/-- Length that a call passes on to `fi_ibv_connect_xrc` or
`fi_ibv_accept_xrc`. -/
def xrc_paramlen : cm_call → Option Nat
  | cm_call.fi_ibv_connect_xrc _ _ n => some n
  | cm_call.fi_ibv_accept_xrc _ _ n => some n
  | _ => none

/-! ## Concrete inputs -/

/-- A completion of a send posted without a completion request. -/
def wc_unsignaled : ibv_wc :=
  { wr_id := VERBS_NO_COMP_FLAG, status := 0, opcode := 0, vendor_err := 0,
    byte_len := 0, imm_data := 0, qp_num := 1, src_qp := 0, wc_flags := 0 }

/-- A completion the application asked for, with context `ctx`. -/
def wc_signaled (ctx : Nat) : ibv_wc :=
  { wr_id := ctx, status := 0, opcode := 0, vendor_err := 0,
    byte_len := 64, imm_data := 0, qp_num := 1, src_qp := 0, wc_flags := 0 }

/-- The send queue is full (`ENOMEM`), the completion queue holds three
unsignaled completions, and the second post succeeds. -/
def state_three_unsignaled : verbs_state :=
  { posts := [{ ret := 12, errno := 0 }, { ret := 0, errno := 0 }],
    polls := [batch_reply [wc_unsignaled, wc_unsignaled, wc_unsignaled],
              { ret := 0, wc := [] }],
    allocs := [], errno := 0, wcq := [{ wc := wc_signaled 1 }], trace := [] }

/-- The completion queue delivers two batches that mix signaled and
unsignaled completions, then is empty. -/
def state_mixed_batches : verbs_state :=
  { posts := [],
    polls := [batch_reply [wc_unsignaled, wc_signaled 5, wc_unsignaled],
              batch_reply [wc_signaled 7, wc_signaled 8],
              { ret := 0, wc := [] }],
    allocs := [true, true, true], errno := 0, wcq := [{ wc := wc_signaled 1 }],
    trace := [] }

/-- The post fails with `EINVAL` returned directly. -/
def state_post_einval : verbs_state :=
  { posts := [{ ret := 22, errno := 0 }], polls := [], allocs := [], errno := 0,
    wcq := [], trace := [] }

/-- The post returns `-1` and `errno` is `0`. -/
def state_post_minus_one : verbs_state :=
  { posts := [{ ret := -1, errno := 0 }], polls := [], allocs := [], errno := 0,
    wcq := [], trace := [] }

/-- The first poll finds an unsignaled completion, the second a signaled
one. -/
def state_poll_new : verbs_state :=
  { posts := [],
    polls := [batch_reply [wc_unsignaled], batch_reply [wc_signaled 3],
              batch_reply [wc_signaled 4]],
    allocs := [], errno := 0, wcq := [], trace := [] }

/-- An endpoint without queue pair and with a shared receive queue. -/
def ep_fresh : fi_ibv_ep := { id_qp := false, srq_ep := true, info := none }

/-- An enabled XRC endpoint. -/
def xrc_ep_enabled : fi_ibv_xrc_ep :=
  { base_ep :=
      { id_qp := true, srq_ep := false,
        info := some { ep_attr := some { type := fi_ep_type.FI_EP_MSG,
                                         protocol := fi_protocol.FI_PROTO_RDMA_CM_IB_XRC } } },
    srqn := 5, conn_setup := none }

/-- Answers with which every call that leaves the code succeeds. -/
def cm_env_ok : cm_env :=
  { fi_control_ret := 0, rdma_ret := 0, errno := 0, malloc_ok := true,
    calloc_ok := true, conn_tag := 0x00010001, xrc_ret := 0 }

/-- A connection request on an XRC endpoint. -/
def xrc_connreq : fi_ibv_connreq :=
  { is_xrc := true,
    xrc := { conn_tag := 0x00010001, is_reciprocal := 0, ini_qpn := 7,
             conn_data := 0, port := 4791 } }

/-- A connection request on a plain endpoint. -/
def rc_connreq : fi_ibv_connreq :=
  { is_xrc := false,
    xrc := { conn_tag := 0, is_reciprocal := 0, ini_qpn := 0, conn_data := 0, port := 0 } }

/-! ## Calls on the completion-queue lock -/

/-- Whether a call takes or gives back the completion-queue lock. -/
def is_lock_call : verbs_call → Bool
  | verbs_call.lock_acquire => true
  | verbs_call.lock_release => true
  | _ => false

/-! ## Endpoint name -/

/-- A `malloc`ed buffer: its address and the bytes it holds. -/
structure heap_buf where
  ptr : Nat
  bytes : List Nat
deriving DecidableEq, Repr

/-- `struct rdma_cm_id` of librdmacm: an identity and `id->qp` (`none` for
NULL). -/
structure rdma_cm_id where
  ident : Nat
  qp : Option Nat
deriving DecidableEq, Repr

/-- The fields of `struct fi_ibv_ep` and of its `info` that
`fi_ibv_msg_ep_setname` reads and writes: `info->src_addr`,
`info->src_addrlen`, `id` and `ibv_qp` (`none` for NULL). -/
structure fi_ibv_ep_name where
  src_addr : Option heap_buf
  src_addrlen : Nat
  id : Option rdma_cm_id
  ibv_qp : Option Nat
deriving DecidableEq, Repr

/-- Calls that leave `fi_ibv_msg_ep_setname`. -/
inductive setname_call where
  | malloc (size : Nat)
  | fi_ibv_create_ep (src_addr : heap_buf)
  | rdma_destroy_ep (id : rdma_cm_id)
  | free (buf : Option heap_buf)
deriving DecidableEq, Repr

/-- Answers of the calls that leave `fi_ibv_msg_ep_setname`: the address
`malloc` returns (`none` for NULL), the return value of `fi_ibv_create_ep`
and the identifier it stores in `id`. -/
structure setname_env where
  malloc_ptr : Option Nat
  create_ep_ret : Int
  create_ep_id : rdma_cm_id
deriving DecidableEq, Repr

/-- `fi_ibv_msg_ep_setname`: return value, the endpoint afterwards and the
calls made.  `addr` holds the bytes at the caller's pointer. -/
def fi_ibv_msg_ep_setname (E : errno_h) (env : setname_env) (ep : fi_ibv_ep_name)
    (addr : List Nat) (addrlen : Nat) : Int × fi_ibv_ep_name × List setname_call :=
  if addrlen ≠ ep.src_addrlen then (-E.FI_EINVAL, ep, [])
  else
    let save_addr := ep.src_addr
    match env.malloc_ptr with
    | none =>
      (-E.FI_ENOMEM, { ep with src_addr := save_addr },
        [setname_call.malloc ep.src_addrlen])
    | some p =>
      let new_addr : heap_buf := { ptr := p, bytes := addr.take ep.src_addrlen }
      if env.create_ep_ret ≠ 0 then
        (env.create_ep_ret, { ep with src_addr := save_addr },
          [setname_call.malloc ep.src_addrlen, setname_call.fi_ibv_create_ep new_addr,
           setname_call.free (some new_addr)])
      else
        (0,
          { ep with src_addr := some new_addr, id := some env.create_ep_id,
                    ibv_qp := env.create_ep_id.qp },
          [setname_call.malloc ep.src_addrlen, setname_call.fi_ibv_create_ep new_addr] ++
            (match ep.id with
             | some i => [setname_call.rdma_destroy_ep i]
             | none => []) ++
            [setname_call.free save_addr])

/-! ## Layout of the XRC header -/

/-- Members of `struct fi_ibv_xrc_cm_data`. -/
inductive xrc_cm_data_member where
  | version
  | reciprocal
  | port
  | param
  | conn_tag
deriving DecidableEq, Repr

/-- The members of `struct fi_ibv_xrc_cm_data` in declaration order, each with
its size in bytes (`uint8_t`, `uint8_t`, `uint16_t`, `uint32_t`, `uint32_t`). -/
def fi_ibv_xrc_cm_data_members : List (xrc_cm_data_member × Nat) :=
  [(xrc_cm_data_member.version, 1), (xrc_cm_data_member.reciprocal, 1),
   (xrc_cm_data_member.port, 2), (xrc_cm_data_member.param, 4),
   (xrc_cm_data_member.conn_tag, 4)]

/-- Offsets of the members of a C structure of integers, each aligned to its
size: a member starts at the first multiple of its size at or after the end
of the member before it.  `off` is the end of the members placed so far. -/
def struct_offsets (off : Nat) :
    List (xrc_cm_data_member × Nat) → List (xrc_cm_data_member × Nat)
  | [] => []
  | (m, size) :: rest =>
    (m, (off + size - 1) / size * size) ::
      struct_offsets ((off + size - 1) / size * size + size) rest

/-- Size of such a structure: the end of its last member, rounded up to the
largest member size. -/
def struct_size (members : List (xrc_cm_data_member × Nat)) : Nat :=
  let sized := List.zip (struct_offsets 0 members) members
  let end_of := (sized.map (fun p => p.1.2 + p.2.2)).foldl max 0
  let align := (members.map (fun p => p.2)).foldl max 1
  (end_of + align - 1) / align * align

/-! ## Vocabulary of the later theorems -/

/-- Whether a call is a `malloc`. -/
def is_malloc : cm_call → Bool
  | cm_call.malloc _ => true
  | _ => false

/-- Whether a call hands the buffer `buf` with length `len` to
`fi_ibv_connect_xrc` or `fi_ibv_accept_xrc`. -/
def xrc_param_of : cm_call → Option (xrc_cm_buf × Nat)
  | cm_call.fi_ibv_connect_xrc _ b n => some (b, n)
  | cm_call.fi_ibv_accept_xrc _ b n => some (b, n)
  | _ => none

/-! ## Concrete inputs, continued -/

/-- An enabled endpoint with a connection request attached. -/
def ep_enabled : fi_ibv_ep := { id_qp := true, srq_ep := false, info := none }

/-- `rdma_accept` fails with `ECONNREFUSED`. -/
def cm_env_rdma_fails : cm_env :=
  { fi_control_ret := 0, rdma_ret := -1, errno := 111, malloc_ok := true,
    calloc_ok := true, conn_tag := 0x00010001, xrc_ret := 0 }

/-- No connection tag is left: `fi_ibv_eq_set_xrc_conn_tag` leaves
`VERBS_CONN_TAG_INVALID`; every other call succeeds. -/
def cm_env_no_tag : cm_env :=
  { fi_control_ret := 0, rdma_ret := 0, errno := 0, malloc_ok := true,
    calloc_ok := true, conn_tag := VERBS_CONN_TAG_INVALID, xrc_ret := 0 }

/-- An endpoint bound to a four-byte address, with identifier and queue
pair. -/
def ep_named : fi_ibv_ep_name :=
  { src_addr := some { ptr := 4096, bytes := [10, 0, 0, 1] }, src_addrlen := 4,
    id := some { ident := 1, qp := some 17 }, ibv_qp := some 17 }

/-- `malloc` succeeds and `fi_ibv_create_ep` fails. -/
def setname_env_create_fails : setname_env :=
  { malloc_ptr := some 8192, create_ep_ret := -98,
    create_ep_id := { ident := 2, qp := some 18 } }

/-- `malloc` and `fi_ibv_create_ep` succeed. -/
def setname_env_ok : setname_env :=
  { malloc_ptr := some 8192, create_ep_ret := 0,
    create_ep_id := { ident := 2, qp := some 18 } }

/-! ## Endpoint address queries -/

/-- `memcpy(dst, src, n)` on the bytes of two objects that hold at least `n`
bytes each: the first `n` bytes of `dst` are replaced by those of `src`. -/
def memcpy (dst src : List Nat) (n : Nat) : List Nat := src.take n ++ dst.drop n

/-- `fi_ibv_copy_addr`: return value, the bytes at `dst_addr` afterwards,
`*dst_addrlen` afterwards and the lengths of the `memcpy` calls made.
`dst_addr` and `src_addr` hold the bytes at the two pointers, `dst_addrlen`
is `*dst_addrlen` on entry.  `fi_ibv_sockaddr_len` is declared in
`fi_verbs.h` (`int fi_ibv_sockaddr_len(struct sockaddr *addr)`) and defined
outside these sources; its `int` result is converted to `size_t`. -/
def fi_ibv_copy_addr (E : errno_h) (fi_ibv_sockaddr_len : List Nat → Int)
    (dst_addr : List Nat) (dst_addrlen : Nat) (src_addr : List Nat) :
    Int × List Nat × Nat × List Nat :=
  let src_addrlen := (fi_ibv_sockaddr_len src_addr % SIZE_MAX_succ).toNat
  if dst_addrlen = 0 then (-E.FI_ETOOSMALL, dst_addr, src_addrlen, [])
  else if dst_addrlen < src_addrlen then
    (0, memcpy dst_addr src_addr dst_addrlen, src_addrlen, [dst_addrlen])
  else
    (0, memcpy dst_addr src_addr src_addrlen, src_addrlen, [src_addrlen])

/-- `id->route.addr` of a `struct rdma_cm_id`: the bytes that
`rdma_get_local_addr(id)` and `rdma_get_peer_addr(id)` point to. -/
structure rdma_addr where
  src_addr : List Nat
  dst_addr : List Nat
deriving DecidableEq, Repr

/-- `fi_ibv_msg_ep_getname`; `id_addr` is the address record of `_ep->id`. -/
def fi_ibv_msg_ep_getname (E : errno_h) (fi_ibv_sockaddr_len : List Nat → Int)
    (id_addr : rdma_addr) (addr : List Nat) (addrlen : Nat) :
    Int × List Nat × Nat × List Nat :=
  fi_ibv_copy_addr E fi_ibv_sockaddr_len addr addrlen id_addr.src_addr

/-- `fi_ibv_msg_ep_getpeer`; `id_addr` is the address record of `_ep->id`. -/
def fi_ibv_msg_ep_getpeer (E : errno_h) (fi_ibv_sockaddr_len : List Nat → Int)
    (id_addr : rdma_addr) (addr : List Nat) (addrlen : Nat) :
    Int × List Nat × Nat × List Nat :=
  fi_ibv_copy_addr E fi_ibv_sockaddr_len addr addrlen id_addr.dst_addr

/-- `fi_ibv_pep_getname`; `id_addr` is the address record of `_pep->id`. -/
def fi_ibv_pep_getname (E : errno_h) (fi_ibv_sockaddr_len : List Nat → Int)
    (id_addr : rdma_addr) (addr : List Nat) (addrlen : Nat) :
    Int × List Nat × Nat × List Nat :=
  fi_ibv_copy_addr E fi_ibv_sockaddr_len addr addrlen id_addr.src_addr

/-! ## Vocabulary of the last theorems -/

/-- The parameters a call hands to `rdma_connect` or `rdma_accept`. -/
def conn_param_of : cm_call → Option rdma_conn_param
  | cm_call.rdma_connect p => some p
  | cm_call.rdma_accept p => some p
  | _ => none

/-! ## Concrete inputs, last part -/

/-- Every address is a `struct sockaddr_in` of 16 bytes. -/
def sockaddr_len_inet : List Nat → Int := fun _ => 16

/-- A `struct sockaddr_in`: family 2, port 4791, address 10.0.0.1, padding. -/
def sockaddr_local : List Nat := [2, 0, 18, 183, 10, 0, 0, 1, 0, 0, 0, 0, 0, 0, 0, 0]

/-- The peer's `struct sockaddr_in`: address 10.0.0.2. -/
def sockaddr_peer : List Nat := [2, 0, 18, 183, 10, 0, 0, 2, 0, 0, 0, 0, 0, 0, 0, 0]

/-- The address record of a connected identifier. -/
def id_addr_connected : rdma_addr := { src_addr := sockaddr_local, dst_addr := sockaddr_peer }

/-- The completion queue delivers one completion the application asked
for, then is empty; the pool of cache entries is exhausted. -/
def state_pool_exhausted : verbs_state :=
  { posts := [], polls := [batch_reply [wc_signaled 7], { ret := 0, wc := [] }],
    allocs := [false], errno := 0, wcq := [], trace := [] }

/-! ## Concrete inputs of the failing paths -/

/-- `rdma_accept` fails and leaves `errno` at 0. -/
def cm_env_rdma_fails_errno_zero : cm_env :=
  { fi_control_ret := 0, rdma_ret := -1, errno := 0, malloc_ok := true,
    calloc_ok := true, conn_tag := 0x00010001, xrc_ret := 0 }

/-- Calls appended to a trace are the new calls. -/
theorem new_calls_append (s t : verbs_state) (l : List verbs_call)
    (h : t.trace = s.trace ++ l) : new_calls s t = l := by
  simp [new_calls, h]

/-- A post appends one `post_send` to the trace. -/
theorem post_send_trace (s : verbs_state) :
    (post_send s).2.trace = s.trace ++ [verbs_call.post_send] := by
  unfold post_send
  cases s.posts <;> rfl

/-- An allocation appends one `buf_alloc` to the trace. -/
theorem ofi_buf_alloc_trace (s : verbs_state) :
    (ofi_buf_alloc s).2.trace = s.trace ++ [verbs_call.buf_alloc] := by
  unfold ofi_buf_alloc
  cases s.allocs <;> rfl

/-- `fi_ibv_wc_2_wce` appends one `buf_alloc` to the trace. -/
theorem fi_ibv_wc_2_wce_trace (E : errno_h) (s : verbs_state) (wc : ibv_wc) :
    (fi_ibv_wc_2_wce E s wc).2.trace = s.trace ++ [verbs_call.buf_alloc] := by
  have h := ofi_buf_alloc_trace s
  unfold fi_ibv_wc_2_wce
  rcases hq : ofi_buf_alloc s with ⟨o, s1⟩
  rw [hq] at h
  rcases o with _ | b
  · exact h
  · cases b <;> exact h

/-- The `for` loop of the drain makes no `post_send` call. -/
theorem for_trace (E : errno_h) (wcs : List ibv_wc) :
    ∀ s : verbs_state, ∃ l : List verbs_call,
      (fi_ibv_poll_reap_unsig_cq_for E wcs s).2.trace = s.trace ++ l ∧
      verbs_call.post_send ∉ l := by
  induction wcs with
  | nil => intro s; exact ⟨[], by simp [fi_ibv_poll_reap_unsig_cq_for]⟩
  | cons wc wcs ih =>
    intro s
    unfold fi_ibv_poll_reap_unsig_cq_for
    by_cases h0 : fi_ibv_process_wc wc = 0
    · simp only [h0, if_true]; exact ih s
    · simp only [h0, if_false]
      have ht := fi_ibv_wc_2_wce_trace E s wc
      rcases hq : fi_ibv_wc_2_wce E s wc with ⟨o, s1⟩
      rw [hq] at ht
      simp only at ht
      rcases o with _ | ⟨ret, wce⟩
      · exact ⟨[verbs_call.buf_alloc], ht, by simp⟩
      · have key : ∀ s2 : verbs_state, s2.trace = s1.trace →
            ∃ l : List verbs_call,
              (fi_ibv_poll_reap_unsig_cq_for E wcs s2).2.trace = s.trace ++ l ∧
              verbs_call.post_send ∉ l := by
          intro s2 h2
          obtain ⟨l, hl, hn⟩ := ih s2
          refine ⟨verbs_call.buf_alloc :: l, ?_, by simp [hn]⟩
          rw [hl, h2, ht]; simp
        by_cases hr : ret = 0
        · simp only [hr, if_true]
          rcases wce with _ | e
          · exact key s1 rfl
          · exact key _ rfl
        · simp only [hr, if_false]
          exact key s1 rfl

/-- The `while` loop of the drain makes no `post_send` call. -/
theorem while_trace (E : errno_h) (polls : List poll_reply) :
    ∀ s : verbs_state, ∃ l : List verbs_call,
      (fi_ibv_poll_reap_unsig_cq_while E polls s).2.trace = s.trace ++ l ∧
      verbs_call.post_send ∉ l := by
  induction polls with
  | nil => intro s; exact ⟨[verbs_call.poll_cq 10], by simp [fi_ibv_poll_reap_unsig_cq_while]⟩
  | cons r rest ih =>
    intro s
    unfold fi_ibv_poll_reap_unsig_cq_while
    by_cases hr : r.ret ≤ 0
    · simp only [hr, if_true]
      exact ⟨[verbs_call.poll_cq 10, verbs_call.lock_release], by simp, by simp⟩
    · simp only [hr, if_false]
      obtain ⟨l1, hl1, hn1⟩ := for_trace E ((r.wc.take 10).take r.ret.toNat)
        { s with polls := rest, trace := s.trace ++ [verbs_call.poll_cq 10] }
      rcases hq : fi_ibv_poll_reap_unsig_cq_for E ((r.wc.take 10).take r.ret.toNat)
        { s with polls := rest, trace := s.trace ++ [verbs_call.poll_cq 10] } with ⟨b, s2⟩
      rw [hq] at hl1
      simp only at hl1
      cases b
      · exact ⟨verbs_call.poll_cq 10 :: l1, by simp [hl1], by simp [hn1]⟩
      · obtain ⟨l2, hl2, hn2⟩ := ih s2
        refine ⟨verbs_call.poll_cq 10 :: (l1 ++ l2), ?_, by simp [hn1, hn2]⟩
        simp only [hl2, hl1]; simp

/-- The drain makes no `post_send` call. -/
theorem reap_trace (E : errno_h) (s : verbs_state) :
    ∃ l : List verbs_call,
      (fi_ibv_poll_reap_unsig_cq E s).2.trace = s.trace ++ l ∧
      verbs_call.post_send ∉ l := by
  unfold fi_ibv_poll_reap_unsig_cq
  obtain ⟨l, hl, hn⟩ := while_trace E s.polls
    { s with trace := s.trace ++ [verbs_call.lock_acquire] }
  exact ⟨verbs_call.lock_acquire :: l, by simp [hl], by simp [hn]⟩

/-- Claim C1: `fi_ibv_send_poll_cq_if_needed` retries the post exactly once.
For every state (every script of device answers) `post_send` is called at
least once and at most twice; it is called a second time if and only if the
first post returned a non-zero value that `fi_ibv_handle_post` maps to
`-FI_EAGAIN` and the drain `fi_ibv_poll_reap_unsig_cq` returned 0; when the
drain returns a non-zero value the call returns `-FI_EAGAIN` after a single
post; when the first post returns 0 the only call made is that post (the
completion queue is not polled) and the result is 0. -/
theorem send_retries_post_once (E : errno_h) (s : verbs_state) :
    1 ≤ (new_calls s (fi_ibv_send_poll_cq_if_needed E s).2).count verbs_call.post_send ∧
    (new_calls s (fi_ibv_send_poll_cq_if_needed E s).2).count verbs_call.post_send ≤ 2 ∧
    ((new_calls s (fi_ibv_send_poll_cq_if_needed E s).2).count verbs_call.post_send = 2 ↔
      ((∃ ret, (post_send s).1 = some ret ∧ ret ≠ 0 ∧
          fi_ibv_handle_post E (post_send s).2.errno ret = -E.FI_EAGAIN) ∧
        (fi_ibv_poll_reap_unsig_cq E (post_send s).2).1 = some 0)) ∧
    (∀ ret d, (post_send s).1 = some ret → ret ≠ 0 →
        fi_ibv_handle_post E (post_send s).2.errno ret = -E.FI_EAGAIN →
        (fi_ibv_poll_reap_unsig_cq E (post_send s).2).1 = some d → d ≠ 0 →
        (fi_ibv_send_poll_cq_if_needed E s).1 = some (-E.FI_EAGAIN) ∧
        (new_calls s (fi_ibv_send_poll_cq_if_needed E s).2).count
          verbs_call.post_send = 1) ∧
    ((post_send s).1 = some 0 →
        (fi_ibv_send_poll_cq_if_needed E s).1 = some 0 ∧
        new_calls s (fi_ibv_send_poll_cq_if_needed E s).2 = [verbs_call.post_send]) := by
  have hp := post_send_trace s
  unfold fi_ibv_send_poll_cq_if_needed
  rcases hq : post_send s with ⟨o, s1⟩
  rw [hq] at hp
  simp only at hp
  have n1 : new_calls s s1 = [verbs_call.post_send] := new_calls_append s s1 _ hp
  rcases o with _ | ret
  · simp [n1]
  · by_cases h0 : ret = 0
    · subst h0
      simp [n1]
      intro r d h1 h2
      exact absurd h1.symm h2
    · by_cases hA : fi_ibv_handle_post E s1.errno ret = -E.FI_EAGAIN
      · obtain ⟨l, hl, hn⟩ := reap_trace E s1
        rcases hr : fi_ibv_poll_reap_unsig_cq E s1 with ⟨o2, s2⟩
        rw [hr] at hl
        simp only at hl
        have n2 : new_calls s s2 = verbs_call.post_send :: l :=
          new_calls_append s s2 _ (by rw [hl, hp]; simp)
        have c2 : (new_calls s s2).count verbs_call.post_send = 1 := by
          rw [n2]; simp [List.count_cons, List.count_eq_zero.mpr hn]
        rcases o2 with _ | d
        · simp [h0, hA, c2, hr]
        · by_cases hd : d = 0
          · subst hd
            have hp3 := post_send_trace s2
            rcases hq3 : post_send s2 with ⟨o3, s3⟩
            rw [hq3] at hp3
            simp only at hp3
            have n3 : new_calls s s3 = verbs_call.post_send :: (l ++ [verbs_call.post_send]) :=
              new_calls_append s s3 _ (by rw [hp3, hl, hp]; simp)
            have c3 : (new_calls s s3).count verbs_call.post_send = 2 := by
              rw [n3]; simp [List.count_cons, List.count_append, List.count_eq_zero.mpr hn]
            rcases o3 with _ | r3 <;> simp [h0, hA, c3, hr, hq3] <;>
              (intro r d _ _ _ h4; exact h4.symm)
          · simp [h0, hA, hd, c2, hr]
      · simp [h0, hA, n1]
        intro r d h1 _ h3
        subst h1
        exact absurd h3 hA

/-- Value of `fi_ibv_handle_post` when it is not `-FI_EAGAIN`. -/
theorem handle_post_fatal (E : errno_h) (errno ret : Int)
    (hA : fi_ibv_handle_post E errno ret ≠ -E.FI_EAGAIN) :
    fi_ibv_handle_post E errno ret = (if ret = -1 then -errno else -|ret|) := by
  unfold fi_ibv_handle_post at hA ⊢
  by_cases h1 : ret = -E.ENOMEM ∨ ret = E.ENOMEM
  · rw [if_pos h1] at hA; exact absurd rfl hA
  · rw [if_neg h1] at hA ⊢
    by_cases h2 : ret = -1
    · rw [if_pos h2, if_pos h2] at *
      by_cases h3 : errno = E.ENOMEM
      · rw [if_pos h3] at hA; exact absurd rfl hA
      · rw [if_neg h3]
    · rw [if_neg h2, if_neg h2]

/-- Claim C2, amended: when the first post returns a non-zero value that
`fi_ibv_handle_post` does not map to `-FI_EAGAIN`, the call makes that one
`post_send` call and nothing else, leaves the completion cache and the pending
polls unchanged, and returns the value of `fi_ibv_handle_post`, which is
`-errno` when the post returned `-1` and `-|ret|` otherwise; that value is
strictly negative provided `errno` is positive in the `-1` case. -/
theorem send_fatal_post_not_retried (E : errno_h) (s : verbs_state) (p : post_reply)
    (rest : List post_reply) (hs : s.posts = p :: rest) (h0 : p.ret ≠ 0)
    (hA : fi_ibv_handle_post E p.errno p.ret ≠ -E.FI_EAGAIN) :
    fi_ibv_send_poll_cq_if_needed E s =
      (some (fi_ibv_handle_post E p.errno p.ret),
       { s with posts := rest, errno := p.errno,
                trace := s.trace ++ [verbs_call.post_send] }) ∧
    new_calls s (fi_ibv_send_poll_cq_if_needed E s).2 = [verbs_call.post_send] ∧
    (fi_ibv_send_poll_cq_if_needed E s).2.wcq = s.wcq ∧
    (fi_ibv_send_poll_cq_if_needed E s).2.polls = s.polls ∧
    fi_ibv_handle_post E p.errno p.ret = (if p.ret = -1 then -p.errno else -|p.ret|) ∧
    ((p.ret = -1 → 0 < p.errno) → fi_ibv_handle_post E p.errno p.ret < 0) := by
  have hv := handle_post_fatal E p.errno p.ret hA
  have hfun : fi_ibv_send_poll_cq_if_needed E s =
      (some (fi_ibv_handle_post E p.errno p.ret),
       { s with posts := rest, errno := p.errno,
                trace := s.trace ++ [verbs_call.post_send] }) := by
    simp [fi_ibv_send_poll_cq_if_needed, post_send, hs, h0, hA]
  refine ⟨hfun, ?_, ?_, ?_, hv, ?_⟩
  · rw [hfun]; exact new_calls_append _ _ _ rfl
  · rw [hfun]
  · rw [hfun]
  · intro hpos
    rw [hv]
    by_cases h1 : p.ret = -1
    · simp only [h1, if_true]
      have := hpos h1
      omega
    · simp only [h1, if_false]
      have : 0 < |p.ret| := abs_pos.mpr h0
      omega

/-- `requested` distributes over concatenation. -/
theorem requested_append (a b : List ibv_wc) :
    requested (a ++ b) = requested a ++ requested b := by
  simp [requested]

/-- Nothing is requested among unsignaled completions. -/
theorem requested_nocomp (wcs : List ibv_wc)
    (h : ∀ w ∈ wcs, w.wr_id = VERBS_NO_COMP_FLAG) : requested wcs = [] := by
  simp only [requested, List.filter_eq_nil_iff]
  intro w hw
  simp [h w hw]

/-- The `for` loop caches the requested completions of one batch. -/
theorem for_spec (E : errno_h) (wcs : List ibv_wc) :
    ∀ (s : verbs_state) (arest : List Bool),
      (requested wcs ≠ [] → E.FI_SUCCESS = 0) →
      s.allocs = List.replicate (requested wcs).length true ++ arest →
      fi_ibv_poll_reap_unsig_cq_for E wcs s =
        (true, { s with allocs := arest,
                        wcq := s.wcq ++ (requested wcs).map fi_ibv_wce.mk,
                        trace := s.trace ++
                          List.replicate (requested wcs).length verbs_call.buf_alloc }) := by
  induction wcs with
  | nil =>
    intro s arest _ ha
    simp [requested] at ha
    simp [fi_ibv_poll_reap_unsig_cq_for, requested, ← ha]
  | cons wc wcs ih =>
    intro s arest hS ha
    unfold fi_ibv_poll_reap_unsig_cq_for
    by_cases hw : wc.wr_id = VERBS_NO_COMP_FLAG
    · have hr : requested (wc :: wcs) = requested wcs := by simp [requested, hw]
      rw [hr] at hS ha ⊢
      simp only [fi_ibv_process_wc, hw, if_true]
      exact ih s arest hS ha
    · have hr : requested (wc :: wcs) = wc :: requested wcs := by simp [requested, hw]
      rw [hr] at hS ha ⊢
      have hz : E.FI_SUCCESS = 0 := hS (by simp)
      simp only [List.length_cons, List.replicate_succ, List.cons_append] at ha
      have h1 : fi_ibv_process_wc wc ≠ 0 := by simp [fi_ibv_process_wc, hw]
      simp only [h1, if_false, fi_ibv_wc_2_wce, ofi_buf_alloc, ha, hz, if_true]
      rw [ih _ arest (fun _ => hz) rfl]
      simp [List.replicate_succ]

/-- The `while` loop caches the requested completions of all batches. -/
theorem while_spec (E : errno_h) (batches : List (List ibv_wc)) (fin : poll_reply)
    (prest : List poll_reply) (hfin : fin.ret ≤ 0)
    (hb : ∀ b ∈ batches, b ≠ [] ∧ b.length ≤ 10) :
    ∀ (s : verbs_state) (arest : List Bool),
      (requested batches.flatten ≠ [] → E.FI_SUCCESS = 0) →
      s.allocs = List.replicate (requested batches.flatten).length true ++ arest →
      (fi_ibv_poll_reap_unsig_cq_while E (batches.map batch_reply ++ fin :: prest) s).1
          = some fin.ret ∧
      (fi_ibv_poll_reap_unsig_cq_while E (batches.map batch_reply ++ fin :: prest) s).2.wcq
          = s.wcq ++ (requested batches.flatten).map fi_ibv_wce.mk ∧
      (fi_ibv_poll_reap_unsig_cq_while E (batches.map batch_reply ++ fin :: prest) s).2.polls
          = prest ∧
      (fi_ibv_poll_reap_unsig_cq_while E (batches.map batch_reply ++ fin :: prest) s).2.allocs
          = arest ∧
      (fi_ibv_poll_reap_unsig_cq_while E (batches.map batch_reply ++ fin :: prest) s).2.posts
          = s.posts ∧
      (fi_ibv_poll_reap_unsig_cq_while E (batches.map batch_reply ++ fin :: prest) s).2.errno
          = s.errno := by
  induction batches with
  | nil =>
    intro s arest _ ha
    simp [requested] at ha
    simp [fi_ibv_poll_reap_unsig_cq_while, hfin, requested, ha]
  | cons b bs ih =>
    intro s arest hS ha
    obtain ⟨hne, hlen⟩ := hb b (by simp)
    have hpos : ¬ ((b.length : Int) ≤ 0) := by
      have : 0 < b.length := List.length_pos.mpr hne
      omega
    have htake : (b.take 10).take (b.length : Int).toNat = b := by
      simp [List.take_of_length_le hlen]
    have hj : requested (b :: bs).flatten = requested b ++ requested bs.flatten := by
      simp [requested_append]
    rw [hj] at hS ha ⊢
    simp only [List.length_append, List.replicate_add, List.append_assoc] at ha
    have hS1 : requested b ≠ [] → E.FI_SUCCESS = 0 := fun h => hS (by simp [h])
    have hS2 : requested bs.flatten ≠ [] → E.FI_SUCCESS = 0 := fun h => hS (by simp [h])
    rw [show (b :: bs).map batch_reply ++ fin :: prest =
      batch_reply b :: (bs.map batch_reply ++ fin :: prest) from rfl]
    simp only [fi_ibv_poll_reap_unsig_cq_while, batch_reply, hpos, if_false, htake]
    rw [for_spec E b { s with polls := bs.map batch_reply ++ fin :: prest,
                              trace := s.trace ++ [verbs_call.poll_cq 10] } _ hS1 ha]
    simp only
    have := ih (fun b' hb' => hb b' (by simp [hb']))
      { s with polls := bs.map batch_reply ++ fin :: prest,
               allocs := List.replicate (requested bs.flatten).length true ++ arest,
               wcq := s.wcq ++ (requested b).map fi_ibv_wce.mk,
               trace := s.trace ++ [verbs_call.poll_cq 10] ++
                 List.replicate (requested b).length verbs_call.buf_alloc }
      arest hS2 rfl
    simp only [batch_reply] at this
    obtain ⟨h1, h2, h3, h4, h5, h6⟩ := this
    refine ⟨h1, ?_, h3, h4, h5, h6⟩
    rw [h2]; simp

/-- The drain caches the requested completions and returns the last poll's value. -/
theorem reap_spec (E : errno_h) (s : verbs_state) (batches : List (List ibv_wc))
    (fin : poll_reply) (prest : List poll_reply) (arest : List Bool)
    (hS : requested batches.flatten ≠ [] → E.FI_SUCCESS = 0)
    (hp : s.polls = batches.map batch_reply ++ fin :: prest)
    (hfin : fin.ret ≤ 0)
    (hb : ∀ b ∈ batches, b ≠ [] ∧ b.length ≤ 10)
    (ha : s.allocs = List.replicate (requested batches.flatten).length true ++ arest) :
    (fi_ibv_poll_reap_unsig_cq E s).1 = some fin.ret ∧
    (fi_ibv_poll_reap_unsig_cq E s).2.wcq =
      s.wcq ++ (requested batches.flatten).map fi_ibv_wce.mk ∧
    (fi_ibv_poll_reap_unsig_cq E s).2.polls = prest ∧
    (fi_ibv_poll_reap_unsig_cq E s).2.allocs = arest ∧
    (fi_ibv_poll_reap_unsig_cq E s).2.posts = s.posts ∧
    (fi_ibv_poll_reap_unsig_cq E s).2.errno = s.errno := by
  unfold fi_ibv_poll_reap_unsig_cq
  rw [hp]
  exact while_spec E batches fin prest hfin hb
    { s with polls := batches.map batch_reply ++ fin :: prest,
             trace := s.trace ++ [verbs_call.lock_acquire] } arest hS ha

/-- Claim C4: when the polls deliver the batches `batches` (each non-empty,
at most ten entries) followed by an empty poll, and the pool hands out a
buffer for every requested completion, `fi_ibv_poll_reap_unsig_cq` returns 0
and the cache afterwards is the cache before followed by exactly the
completions with `wr_id ≠ VERBS_NO_COMP_FLAG`, unchanged and in delivery
order; no added entry carries `VERBS_NO_COMP_FLAG`. -/
theorem reap_caches_requested (E : errno_h) (s : verbs_state)
    (batches : List (List ibv_wc)) (fin : poll_reply) (prest : List poll_reply)
    (arest : List Bool)
    (hS : E.FI_SUCCESS = 0)
    (hp : s.polls = batches.map batch_reply ++ fin :: prest)
    (hfin : fin.ret = 0)
    (hb : ∀ b ∈ batches, b ≠ [] ∧ b.length ≤ 10)
    (ha : s.allocs = List.replicate (requested batches.flatten).length true ++ arest) :
    (fi_ibv_poll_reap_unsig_cq E s).1 = some 0 ∧
    (fi_ibv_poll_reap_unsig_cq E s).2.wcq =
      s.wcq ++ (batches.flatten.filter
        (fun w => decide (w.wr_id ≠ VERBS_NO_COMP_FLAG))).map fi_ibv_wce.mk ∧
    (∀ e ∈ (fi_ibv_poll_reap_unsig_cq E s).2.wcq.drop s.wcq.length,
      e.wc.wr_id ≠ VERBS_NO_COMP_FLAG) ∧
    (fi_ibv_poll_reap_unsig_cq E s).2.polls = prest ∧
    (fi_ibv_poll_reap_unsig_cq E s).2.allocs = arest := by
  obtain ⟨h1, h2, h3, h4, _, _⟩ :=
    reap_spec E s batches fin prest arest (fun _ => hS) hp (by omega) hb ha
  refine ⟨by rw [h1, hfin], h2, ?_, h3, h4⟩
  rw [h2]
  intro e he
  simp only [List.drop_left, List.mem_map, requested, List.mem_filter] at he
  obtain ⟨w, ⟨_, hw⟩, rfl⟩ := he
  simpa using hw

/-- `fi_ibv_handle_post` maps 0 to 0 when `ENOMEM` is not 0. -/
theorem handle_post_zero (E : errno_h) (errno : Int) (hE : E.ENOMEM ≠ 0) :
    fi_ibv_handle_post E errno 0 = 0 := by
  unfold fi_ibv_handle_post
  have h1 : ¬ ((0 : Int) = -E.ENOMEM ∨ (0 : Int) = E.ENOMEM) := by omega
  rw [if_neg h1, if_neg (by decide)]
  simp

/-- Claim C3: if the first post fails with out-of-resources
(`fi_ibv_handle_post` gives `-FI_EAGAIN`), the polls then deliver any number
of non-empty batches of at most ten completions that all carry
`VERBS_NO_COMP_FLAG`, followed by an empty poll, and the second post returns
0, then the call returns 0 and the completion cache is what it was. -/
theorem drain_then_retry_invisible (E : errno_h) (s : verbs_state)
    (p1 p2 : post_reply) (rest : List post_reply)
    (batches : List (List ibv_wc)) (fin : poll_reply) (prest : List poll_reply)
    (hE : E.ENOMEM ≠ 0)
    (hposts : s.posts = p1 :: p2 :: rest)
    (h1 : p1.ret ≠ 0)
    (hA : fi_ibv_handle_post E p1.errno p1.ret = -E.FI_EAGAIN)
    (hpolls : s.polls = batches.map batch_reply ++ fin :: prest)
    (hb : ∀ b ∈ batches,
      b ≠ [] ∧ b.length ≤ 10 ∧ ∀ w ∈ b, w.wr_id = VERBS_NO_COMP_FLAG)
    (hfin : fin.ret = 0)
    (h2 : p2.ret = 0) :
    (fi_ibv_send_poll_cq_if_needed E s).1 = some 0 ∧
    (fi_ibv_send_poll_cq_if_needed E s).2.wcq = s.wcq := by
  have hreq : requested batches.flatten = [] := by
    apply requested_nocomp
    intro w hw
    obtain ⟨b, hbm, hwb⟩ := List.mem_flatten.mp hw
    exact (hb b hbm).2.2 w hwb
  have hr := reap_spec E
    { s with posts := p2 :: rest, errno := p1.errno,
             trace := s.trace ++ [verbs_call.post_send] }
    batches fin prest s.allocs (fun h => absurd hreq h) hpolls (by omega)
    (fun b hbm => ⟨(hb b hbm).1, (hb b hbm).2.1⟩) (by simp [hreq])
  obtain ⟨r1, r2, _, _, r5, _⟩ := hr
  rw [hreq] at r2
  simp only [List.map_nil, List.append_nil] at r2
  unfold fi_ibv_send_poll_cq_if_needed
  simp only [post_send, hposts, h1, ne_eq, not_false_eq_true, if_true, hA]
  rcases hq : fi_ibv_poll_reap_unsig_cq E
    { s with posts := p2 :: rest, errno := p1.errno,
             trace := s.trace ++ [verbs_call.post_send] } with ⟨o, s2⟩
  rw [hq] at r1 r2 r5
  simp only at r1 r2 r5
  subst r1
  simp only [hfin, not_true_eq_false, if_false, r5, h2]
  exact ⟨by rw [handle_post_zero E _ hE], r2⟩

/-- The polling loop skips unsignaled completions. -/
theorem poll_new_loop_spec (skipped : List ibv_wc) (fin : poll_reply)
    (rest : List poll_reply) (hsk : ∀ w ∈ skipped, w.wr_id = VERBS_NO_COMP_FLAG) :
    ∀ (s : verbs_state) (wc : ibv_wc), wc.wr_id = VERBS_NO_COMP_FLAG →
      (fin.ret ≤ 0 →
        (fi_ibv_process_wc_poll_new_loop
            (skipped.map (fun w => batch_reply [w]) ++ fin :: rest) s wc).1 = some fin.ret) ∧
      (∀ w, 0 < fin.ret → fin.wc.head? = some w → w.wr_id ≠ VERBS_NO_COMP_FLAG →
        (fi_ibv_process_wc_poll_new_loop
            (skipped.map (fun w => batch_reply [w]) ++ fin :: rest) s wc).1 = some 1 ∧
        (fi_ibv_process_wc_poll_new_loop
            (skipped.map (fun w => batch_reply [w]) ++ fin :: rest) s wc).2.1 = w) ∧
      ((fin.ret ≤ 0 ∨ ∃ w, fin.wc.head? = some w ∧ w.wr_id ≠ VERBS_NO_COMP_FLAG) →
        (fi_ibv_process_wc_poll_new_loop
            (skipped.map (fun w => batch_reply [w]) ++ fin :: rest) s wc).2.2.polls = rest ∧
        (fi_ibv_process_wc_poll_new_loop
            (skipped.map (fun w => batch_reply [w]) ++ fin :: rest) s wc).2.2.trace =
          s.trace ++ List.replicate (skipped.length + 1) (verbs_call.poll_cq 1)) := by
  induction skipped with
  | nil =>
    intro s wc _
    simp only [List.map_nil, List.nil_append, fi_ibv_process_wc_poll_new_loop,
      List.length_nil]
    refine ⟨?_, ?_, ?_⟩
    · intro h
      have : ¬ (0 < fin.ret) := by omega
      simp [this]
    · intro w hpos hw hne
      cases hwc : fin.wc with
      | nil => simp [hwc] at hw
      | cons a l =>
        simp only [hwc, List.head?_cons, Option.some.injEq] at hw
        subst hw
        simp [hpos, hne]
    · rintro (h | ⟨w, hw, hne⟩)
      · have : ¬ (0 < fin.ret) := by omega
        simp [this]
      · cases hwc : fin.wc with
        | nil => simp [hwc] at hw
        | cons a l =>
          simp only [hwc, List.head?_cons, Option.some.injEq] at hw
          subst hw
          by_cases hpos : 0 < fin.ret <;> simp [hpos, hne]
  | cons a l ih =>
    intro s wc _
    have ha : a.wr_id = VERBS_NO_COMP_FLAG := hsk a (by simp)
    have ih' := ih (fun w hw => hsk w (by simp [hw]))
      { s with polls := l.map (fun w => batch_reply [w]) ++ fin :: rest,
               trace := s.trace ++ [verbs_call.poll_cq 1] } a ha
    rw [show (a :: l).map (fun w => batch_reply [w]) ++ fin :: rest =
      batch_reply [a] :: (l.map (fun w => batch_reply [w]) ++ fin :: rest) from rfl]
    simp only [fi_ibv_process_wc_poll_new_loop, batch_reply, List.length_singleton,
      Nat.cast_one, zero_lt_one, if_true, List.take_succ_cons, List.take_zero,
      List.head?_cons, Option.getD_some, ha, ne_eq, not_true_eq_false, if_false]
    simp only [batch_reply, List.length_singleton, Nat.cast_one] at ih'
    obtain ⟨i1, i2, i3⟩ := ih'
    refine ⟨i1, i2, ?_⟩
    intro h
    obtain ⟨j1, j2⟩ := i3 h
    refine ⟨j1, ?_⟩
    rw [j2]
    simp [List.replicate_succ]

/-- The polling loop returns 1 only with a signaled completion. -/
theorem poll_new_loop_one (polls : List poll_reply) :
    ∀ (s : verbs_state) (wc : ibv_wc),
      (fi_ibv_process_wc_poll_new_loop polls s wc).1 = some 1 →
      (fi_ibv_process_wc_poll_new_loop polls s wc).2.1.wr_id ≠ VERBS_NO_COMP_FLAG := by
  induction polls with
  | nil => intro s wc h; simp [fi_ibv_process_wc_poll_new_loop] at h
  | cons r rest ih =>
    intro s wc
    simp only [fi_ibv_process_wc_poll_new_loop]
    by_cases hpos : 0 < r.ret
    · simp only [hpos, if_true]
      by_cases hw : ((r.wc.take 1).head?.getD wc).wr_id = VERBS_NO_COMP_FLAG
      · simp only [hw, ne_eq, not_true_eq_false, if_false]
        exact ih _ _
      · simp only [hw, ne_eq, not_false_eq_true, if_true]
        intro _; trivial
    · simp only [hpos, if_false]
      intro h
      simp only [Option.some.injEq] at h
      omega

/-- Claim C5: `fi_ibv_process_wc` returns 0 exactly for
`wr_id = VERBS_NO_COMP_FLAG` and 1 otherwise; `fi_ibv_process_wc_poll_new`
returns 1 without any call when `wr_id ≠ VERBS_NO_COMP_FLAG`; otherwise it
polls one entry at a time, skipping completions that carry
`VERBS_NO_COMP_FLAG`, until a poll returns a value `≤ 0` (which it returns)
or delivers a completion with another `wr_id` (it returns 1 with that
completion in `wc`); whenever it returns 1 the completion left in `wc` has
`wr_id ≠ VERBS_NO_COMP_FLAG`. -/
theorem process_wc_hides_unrequested :
    (∀ wc : ibv_wc,
      (fi_ibv_process_wc wc = 0 ↔ wc.wr_id = VERBS_NO_COMP_FLAG) ∧
      (wc.wr_id ≠ VERBS_NO_COMP_FLAG → fi_ibv_process_wc wc = 1)) ∧
    (∀ (s : verbs_state) (wc : ibv_wc), wc.wr_id ≠ VERBS_NO_COMP_FLAG →
      fi_ibv_process_wc_poll_new s wc = (some 1, wc, s)) ∧
    (∀ (s : verbs_state) (wc : ibv_wc) (skipped : List ibv_wc) (fin : poll_reply)
        (rest : List poll_reply),
      wc.wr_id = VERBS_NO_COMP_FLAG →
      (∀ w ∈ skipped, w.wr_id = VERBS_NO_COMP_FLAG) →
      s.polls = skipped.map (fun w => batch_reply [w]) ++ fin :: rest →
      (fin.ret ≤ 0 →
        (fi_ibv_process_wc_poll_new s wc).1 = some fin.ret ∧
        (fi_ibv_process_wc_poll_new s wc).2.2.polls = rest ∧
        new_calls s (fi_ibv_process_wc_poll_new s wc).2.2 =
          List.replicate (skipped.length + 1) (verbs_call.poll_cq 1)) ∧
      (∀ w, 0 < fin.ret → fin.wc.head? = some w → w.wr_id ≠ VERBS_NO_COMP_FLAG →
        (fi_ibv_process_wc_poll_new s wc).1 = some 1 ∧
        (fi_ibv_process_wc_poll_new s wc).2.1 = w ∧
        (fi_ibv_process_wc_poll_new s wc).2.2.polls = rest ∧
        new_calls s (fi_ibv_process_wc_poll_new s wc).2.2 =
          List.replicate (skipped.length + 1) (verbs_call.poll_cq 1))) ∧
    (∀ (s : verbs_state) (wc : ibv_wc),
      (fi_ibv_process_wc_poll_new s wc).1 = some 1 →
      (fi_ibv_process_wc_poll_new s wc).2.1.wr_id ≠ VERBS_NO_COMP_FLAG) := by
  refine ⟨?_, ?_, ?_, ?_⟩
  · intro wc
    unfold fi_ibv_process_wc
    by_cases h : wc.wr_id = VERBS_NO_COMP_FLAG <;> simp [h]
  · intro s wc h
    simp [fi_ibv_process_wc_poll_new, h]
  · intro s wc skipped fin rest hwc hsk hp
    have hl := poll_new_loop_spec skipped fin rest hsk s wc hwc
    have hf : fi_ibv_process_wc_poll_new s wc =
        fi_ibv_process_wc_poll_new_loop
          (skipped.map (fun w => batch_reply [w]) ++ fin :: rest) s wc := by
      simp [fi_ibv_process_wc_poll_new, hwc, hp]
    rw [hf]
    obtain ⟨l1, l2, l3⟩ := hl
    refine ⟨?_, ?_⟩
    · intro h
      obtain ⟨a, b⟩ := l3 (Or.inl h)
      exact ⟨l1 h, a, new_calls_append _ _ _ b⟩
    · intro w hpos hw hne
      obtain ⟨a, b⟩ := l3 (Or.inr ⟨w, hw, hne⟩)
      obtain ⟨c, d⟩ := l2 w hpos hw hne
      exact ⟨c, d, a, new_calls_append _ _ _ b⟩
  · intro s wc
    unfold fi_ibv_process_wc_poll_new
    by_cases h : wc.wr_id = VERBS_NO_COMP_FLAG
    · simp only [h, if_true]
      exact poll_new_loop_one s.polls s wc
    · simp only [h, if_false]
      intro _; exact h

/-- Values of the size constants. -/
theorem cm_data_size_values :
    VERBS_CM_DATA_SIZE = 55 ∧ sizeof_fi_ibv_xrc_cm_data = 12 ∧
    sizeof_fi_ibv_cm_data_hdr = 1 ∧ FI_IBV_CM_DATA_SIZE = 56 ∧
    SIZE_MAX_succ = 18446744073709551616 := by
  decide

/-- The allocation for at most 44 bytes reaches `malloc`. -/
theorem alloc_xrc_params_ok (E : errno_h) (env : cm_env) (param : List Nat)
    (n : Nat) (hn : n ≤ 44) :
    fi_ibv_msg_alloc_xrc_params E env param n =
      if env.malloc_ok then
        (E.FI_SUCCESS,
         some { hdr := xrc_hdr.uninit, body := if n ≠ 0 then param.take n else [] },
         n + 12, [cm_call.malloc (n + 12)])
      else (-E.FI_ENOMEM, none, n, [cm_call.malloc (n + 12)]) := by
  obtain ⟨_, h12, _, h56, hmax⟩ := cm_data_size_values
  have hmod : (12 + n) % 18446744073709551616 = n + 12 := by omega
  have hle : ¬ (n + 12 > 56) := by omega
  unfold fi_ibv_msg_alloc_xrc_params
  simp only [h12, h56, hmax, hmod, hle, if_false]
  cases env.malloc_ok <;> simp

/-- The allocation for more than 44 bytes takes the overflow branch. -/
theorem alloc_xrc_params_overflow (E : errno_h) (env : cm_env) (param : List Nat)
    (n : Nat) (hn : 44 < n) (hmax : n + 12 < 2 ^ 64) :
    fi_ibv_msg_alloc_xrc_params E env param n = (-E.FI_EINVAL, none, n, []) := by
  obtain ⟨_, h12, _, h56, hm⟩ := cm_data_size_values
  have hmod : (12 + n) % 18446744073709551616 = n + 12 := by omega
  have hgt : n + 12 > 56 := by omega
  unfold fi_ibv_msg_alloc_xrc_params
  simp only [h12, h56, hm, hmod, hgt, if_true]

/-- `fi_ibv_msg_xrc_ep_reject` does not free the request. -/
theorem xrc_ep_reject_no_free_connreq (E : errno_h) (env : cm_env)
    (connreq : fi_ibv_connreq) (param : List Nat) (n : Nat) :
    cm_call.free_connreq ∉ (fi_ibv_msg_xrc_ep_reject E env connreq param n).2 := by
  unfold fi_ibv_msg_xrc_ep_reject fi_ibv_msg_alloc_xrc_params
  simp only
  split_ifs <;> simp <;> split_ifs <;> simp

/-- Claim C6, amended: for `paramlen > 55` connect, accept and reject return
`-FI_EINVAL` without making any call (no enable, no `rdma_connect`,
`rdma_accept` or `rdma_reject`, no `free`).  For `paramlen ≤ 55` the return
value of connect and accept is that of the failed enable or of the rdma_cm
call, and so is that of reject for a non-XRC request; reject of an XRC
request returns the rdma_cm result (or `-FI_ENOMEM`) for `paramlen ≤ 43`,
and for `43 < paramlen ≤ 55` it returns `-FI_EINVAL` from the overflow guard
of `fi_ibv_msg_alloc_xrc_params`, having freed the request. -/
theorem cm_oversized_payload_rejected (E : errno_h) (R : rdma_cma_h) (env : cm_env)
    (ep : fi_ibv_ep) (connreq : fi_ibv_connreq) (param : List Nat) (paramlen : Nat) :
    VERBS_CM_DATA_SIZE = 55 ∧
    (55 < paramlen →
      fi_ibv_msg_ep_connect E R env ep param paramlen = (-E.FI_EINVAL, []) ∧
      fi_ibv_msg_ep_accept E R env ep param paramlen = (-E.FI_EINVAL, []) ∧
      fi_ibv_msg_ep_reject E env connreq param paramlen = (-E.FI_EINVAL, [])) ∧
    (paramlen ≤ 55 →
      (fi_ibv_msg_ep_connect E R env ep param paramlen).1 =
        (if ep.id_qp = false ∧ env.fi_control_ret ≠ 0 then env.fi_control_ret
         else rdma_result env) ∧
      (fi_ibv_msg_ep_accept E R env ep param paramlen).1 =
        (if ep.id_qp = false ∧ env.fi_control_ret ≠ 0 then env.fi_control_ret
         else rdma_result env) ∧
      (connreq.is_xrc = false →
        (fi_ibv_msg_ep_reject E env connreq param paramlen).1 = rdma_result env) ∧
      (connreq.is_xrc = true → paramlen ≤ 43 → E.FI_SUCCESS = 0 →
        (fi_ibv_msg_ep_reject E env connreq param paramlen).1 =
          (if env.malloc_ok then rdma_result env else -E.FI_ENOMEM)) ∧
      (connreq.is_xrc = true → 43 < paramlen →
        fi_ibv_msg_ep_reject E env connreq param paramlen =
          (-E.FI_EINVAL, [cm_call.free_connreq]))) := by
  obtain ⟨h55, _, h1, _, _⟩ := cm_data_size_values
  refine ⟨h55, ?_, ?_⟩
  · intro h
    simp [fi_ibv_msg_ep_connect, fi_ibv_msg_ep_accept, fi_ibv_msg_ep_reject, h55, h]
  · intro h
    have hn : ¬ (paramlen > 55) := by omega
    refine ⟨?_, ?_, ?_, ?_, ?_⟩
    · simp only [fi_ibv_msg_ep_connect, h55, hn, if_false]
      cases ep.id_qp <;> by_cases hc : env.fi_control_ret = 0 <;> simp [hc]
    · simp only [fi_ibv_msg_ep_accept, h55, hn, if_false]
      cases ep.id_qp <;> by_cases hc : env.fi_control_ret = 0 <;>
        by_cases hr : env.rdma_ret = 0 <;> simp [hc, hr, rdma_result]
    · intro hx
      simp [fi_ibv_msg_ep_reject, h55, hn, hx]
    · intro hx h43 hS
      have hm : (1 + paramlen) % 256 = paramlen + 1 := by omega
      simp only [fi_ibv_msg_ep_reject, h55, hn, if_false, hx, if_true, h1, hm,
        fi_ibv_msg_xrc_ep_reject]
      rw [alloc_xrc_params_ok E env _ (paramlen + 1) (by omega)]
      cases env.malloc_ok <;> simp [hS]
    · intro hx h43
      have hm : (1 + paramlen) % 256 = paramlen + 1 := by omega
      simp only [fi_ibv_msg_ep_reject, h55, hn, if_false, hx, if_true, h1, hm,
        fi_ibv_msg_xrc_ep_reject]
      rw [alloc_xrc_params_overflow E env _ (paramlen + 1) (by omega) (by omega)]
      simp

/-- Claim C10: for `paramlen ≤ 55` every call of `fi_ibv_msg_ep_reject`, on
an XRC or non-XRC request and whatever the rdma_cm call and the allocation
answer, frees the connection request exactly once, as its last call; the
request is left unfreed exactly when `paramlen > 55`. -/
theorem reject_consumes_connreq (E : errno_h) (env : cm_env)
    (connreq : fi_ibv_connreq) (param : List Nat) (paramlen : Nat) :
    (paramlen ≤ 55 →
      (fi_ibv_msg_ep_reject E env connreq param paramlen).2.count
          cm_call.free_connreq = 1 ∧
      (fi_ibv_msg_ep_reject E env connreq param paramlen).2.getLast? =
          some cm_call.free_connreq) ∧
    ((fi_ibv_msg_ep_reject E env connreq param paramlen).2.count
        cm_call.free_connreq = 0 ↔ 55 < paramlen) := by
  obtain ⟨h55, _, _, _, _⟩ := cm_data_size_values
  have key : paramlen ≤ 55 →
      (fi_ibv_msg_ep_reject E env connreq param paramlen).2.count
          cm_call.free_connreq = 1 ∧
      (fi_ibv_msg_ep_reject E env connreq param paramlen).2.getLast? =
          some cm_call.free_connreq := by
    intro h
    have hn : ¬ (paramlen > 55) := by omega
    simp only [fi_ibv_msg_ep_reject, h55, hn, if_false]
    cases hx : connreq.is_xrc
    · simp
    · have := xrc_ep_reject_no_free_connreq E env connreq
        (cm_hdr_bytes (fi_ibv_msg_ep_prepare_cm_data param paramlen))
        ((sizeof_fi_ibv_cm_data_hdr + paramlen) % 256)
      simp [List.count_append, List.count_eq_zero.mpr this]
  refine ⟨key, ?_⟩
  constructor
  · intro h0
    by_contra hc
    have := (key (by omega)).1
    omega
  · intro h
    simp [fi_ibv_msg_ep_reject, h55, h]

/-- The header of a buffer of at most 255 bytes holds the buffer. -/
theorem prepare_cm_data_exact (param : List Nat) (paramlen : Nat)
    (hlen : param.length = paramlen) (h : paramlen ≤ 255) :
    fi_ibv_msg_ep_prepare_cm_data param paramlen = { size := paramlen, data := param } := by
  have hm : paramlen % 256 = paramlen := by omega
  unfold fi_ibv_msg_ep_prepare_cm_data
  rw [hm, List.take_of_length_le (by omega)]

/-- Claim C7: for a parameter buffer of `paramlen ≤ 55` bytes the `uint8_t`
casts keep `paramlen` and `1 + paramlen`, and the private data that connect,
accept (once the endpoint is enabled) and reject of a non-XRC request hand to
rdma_cm has length `paramlen + 1 ≤ 56` and consists of the byte `paramlen`
followed by the caller's bytes in order. -/
theorem cm_private_data_encoding (E : errno_h) (R : rdma_cma_h) (env : cm_env)
    (ep : fi_ibv_ep) (connreq : fi_ibv_connreq) (param : List Nat) (paramlen : Nat)
    (hlen : param.length = paramlen) (h55 : paramlen ≤ 55) :
    paramlen % 256 = paramlen ∧
    (sizeof_fi_ibv_cm_data_hdr + paramlen) % 256 = paramlen + 1 ∧
    paramlen + 1 ≤ FI_IBV_CM_DATA_SIZE ∧
    (paramlen :: param).length = paramlen + 1 ∧
    (ep.id_qp = true ∨ env.fi_control_ret = 0 →
      (fi_ibv_msg_ep_connect E R env ep param paramlen).2.filterMap handed_private_data =
        [(paramlen + 1, paramlen :: param)] ∧
      (fi_ibv_msg_ep_accept E R env ep param paramlen).2.filterMap handed_private_data =
        [(paramlen + 1, paramlen :: param)]) ∧
    (connreq.is_xrc = false →
      (fi_ibv_msg_ep_reject E env connreq param paramlen).2.filterMap handed_private_data =
        [(paramlen + 1, paramlen :: param)]) := by
  obtain ⟨hV, _, h1, h56, _⟩ := cm_data_size_values
  have hn : ¬ (paramlen > 55) := by omega
  have hm : (1 + paramlen) % 256 = paramlen + 1 := by omega
  have hp := prepare_cm_data_exact param paramlen hlen (by omega)
  have htake : List.take (paramlen + 1) (paramlen :: param) = paramlen :: param := by
    apply List.take_of_length_le
    simp [hlen]
  refine ⟨by omega, by rw [h1]; exact hm, by rw [h56]; omega, by simp [hlen], ?_, ?_⟩
  · intro hen
    have hg : (!ep.id_qp && decide (env.fi_control_ret ≠ 0)) = false := by
      rcases hen with h | h <;> simp [h]
    constructor
    · simp only [fi_ibv_msg_ep_connect, hV, hn, if_false, hg, hp, h1, hm,
        fi_ibv_ep_prepare_rdma_cm_param]
      cases ep.id_qp <;> cases ep.srq_ep <;>
        simp [handed_private_data, cm_hdr_bytes, htake]
    · simp only [fi_ibv_msg_ep_accept, hV, hn, if_false, hg, hp, h1, hm,
        fi_ibv_ep_prepare_rdma_cm_param]
      cases ep.id_qp <;> cases ep.srq_ep <;> by_cases hr : env.rdma_ret = 0 <;>
        simp [handed_private_data, cm_hdr_bytes, htake, hr]
  · intro hx
    simp [fi_ibv_msg_ep_reject, hV, hn, hx, hp, h1, hm, handed_private_data,
      cm_hdr_bytes, htake]

/-- The verification makes no call beyond the enable. -/
theorem common_verify_calls (E : errno_h) (env : cm_env) (ep : fi_ibv_xrc_ep)
    (paramlen : Nat) :
    ∀ c ∈ (fi_ibv_msg_xrc_cm_common_verify E env ep paramlen).2,
      c = cm_call.fi_control_enable := by
  unfold fi_ibv_msg_xrc_cm_common_verify
  split_ifs <;> simp

/-- Claim C8: `fi_ibv_msg_xrc_cm_common_verify` returns `-FI_EINVAL` for an
endpoint that is not XRC; for an enabled XRC endpoint (`srqn ≠ 0`) it returns
`-FI_EINVAL` if `paramlen > 43 = 55 - 12` and `FI_SUCCESS` otherwise; and
whenever it returns a non-zero value, `fi_ibv_msg_xrc_ep_connect` and
`fi_ibv_msg_xrc_ep_accept` return that value, leave the endpoint unchanged
(no connection-setup record) and make no call beyond the enable. -/
theorem xrc_cm_common_verify_spec (E : errno_h) (env : cm_env) (ep : fi_ibv_xrc_ep)
    (param : List Nat) (paramlen : Nat) :
    VERBS_CM_DATA_SIZE - sizeof_fi_ibv_xrc_cm_data = 43 ∧
    (fi_ibv_is_xrc ep.base_ep.info = false →
      fi_ibv_msg_xrc_cm_common_verify E env ep paramlen = (-E.FI_EINVAL, [])) ∧
    (fi_ibv_is_xrc ep.base_ep.info = true → ep.srqn ≠ 0 →
      fi_ibv_msg_xrc_cm_common_verify E env ep paramlen =
        (if 43 < paramlen then -E.FI_EINVAL else E.FI_SUCCESS, []) ∧
      (-E.FI_EINVAL ≠ E.FI_SUCCESS →
        ((fi_ibv_msg_xrc_cm_common_verify E env ep paramlen).1 = -E.FI_EINVAL ↔
          43 < paramlen))) ∧
    ((fi_ibv_msg_xrc_cm_common_verify E env ep paramlen).1 ≠ 0 →
      fi_ibv_msg_xrc_ep_connect E env ep param paramlen =
        ((fi_ibv_msg_xrc_cm_common_verify E env ep paramlen).1, ep,
         (fi_ibv_msg_xrc_cm_common_verify E env ep paramlen).2) ∧
      fi_ibv_msg_xrc_ep_accept E env ep param paramlen =
        fi_ibv_msg_xrc_cm_common_verify E env ep paramlen ∧
      ∀ c ∈ (fi_ibv_msg_xrc_cm_common_verify E env ep paramlen).2,
        c = cm_call.fi_control_enable) := by
  refine ⟨by decide, ?_, ?_, ?_⟩
  · intro hx
    simp [fi_ibv_msg_xrc_cm_common_verify, hx]
  · intro hx hs
    have h43 : VERBS_CM_DATA_SIZE - sizeof_fi_ibv_xrc_cm_data = 43 := by decide
    have hv : fi_ibv_msg_xrc_cm_common_verify E env ep paramlen =
        (if 43 < paramlen then -E.FI_EINVAL else E.FI_SUCCESS, []) := by
      simp only [fi_ibv_msg_xrc_cm_common_verify, hx, hs, h43]
      by_cases h : 43 < paramlen <;> simp [h]
    refine ⟨hv, ?_⟩
    intro hne
    rw [hv]
    by_cases h : 43 < paramlen
    · simp [h]
    · simp only [h, if_false, iff_false]
      exact fun e => hne e.symm
  · intro hr
    refine ⟨?_, ?_, common_verify_calls E env ep paramlen⟩
    · simp only [fi_ibv_msg_xrc_ep_connect, hr, ne_eq, not_false_eq_true, if_true]
    · simp only [fi_ibv_msg_xrc_ep_accept, hr, ne_eq, not_false_eq_true, if_true]

/-- Claim C9: for an XRC endpoint and `paramlen ≤ 43` the verification
succeeds, the allocation reaches `malloc` with `paramlen + 13 ≤ 56` bytes (the
overflow branch is not taken), and that length is what
`fi_ibv_msg_xrc_ep_connect` and `fi_ibv_msg_xrc_ep_accept` pass on to
`fi_ibv_connect_xrc` and `fi_ibv_accept_xrc`; the allocation takes the
overflow branch exactly for `paramlen > 43`. -/
theorem xrc_cm_payload_fits (E : errno_h) (env : cm_env) (ep : fi_ibv_xrc_ep)
    (param : List Nat) (paramlen : Nat)
    (hS : E.FI_SUCCESS = 0)
    (hx : fi_ibv_is_xrc ep.base_ep.info = true)
    (hen : ep.srqn ≠ 0 ∨ env.fi_control_ret = 0)
    (h43 : paramlen ≤ 43) :
    (fi_ibv_msg_xrc_cm_common_verify E env ep paramlen).1 = E.FI_SUCCESS ∧
    paramlen + 13 ≤ FI_IBV_CM_DATA_SIZE ∧
    (fi_ibv_msg_alloc_xrc_params E env
        (cm_hdr_bytes (fi_ibv_msg_ep_prepare_cm_data param paramlen))
        (paramlen + 1)).2.2.2 = [cm_call.malloc (paramlen + 13)] ∧
    (env.malloc_ok = true → env.calloc_ok = true →
      (fi_ibv_msg_xrc_ep_connect E env ep param paramlen).2.2.filterMap xrc_paramlen =
        [paramlen + 13]) ∧
    (env.malloc_ok = true →
      (fi_ibv_msg_xrc_ep_accept E env ep param paramlen).2.filterMap xrc_paramlen =
        [paramlen + 13]) ∧
    (∀ n : Nat, n + 13 < 2 ^ 64 →
      ((fi_ibv_msg_alloc_xrc_params E env
          (cm_hdr_bytes (fi_ibv_msg_ep_prepare_cm_data param n)) (n + 1)).2.2.2 = [] ↔
        43 < n)) := by
  obtain ⟨hV, h12, h1, h56, hmax⟩ := cm_data_size_values
  have hc : ¬ (ep.srqn = 0 ∧ env.fi_control_ret ≠ 0) := by
    rcases hen with h | h <;> simp [h]
  have hg : ¬ (paramlen > VERBS_CM_DATA_SIZE - sizeof_fi_ibv_xrc_cm_data) := by
    rw [hV, h12]; omega
  have hv : fi_ibv_msg_xrc_cm_common_verify E env ep paramlen =
      (E.FI_SUCCESS, if ep.srqn = 0 then [cm_call.fi_control_enable] else []) := by
    simp only [fi_ibv_msg_xrc_cm_common_verify, hx, hc, hg, if_false]
    simp
  have hmod : (paramlen + 1) % 18446744073709551616 = paramlen + 1 := by omega
  have ha := alloc_xrc_params_ok E env
    (cm_hdr_bytes (fi_ibv_msg_ep_prepare_cm_data param paramlen)) (paramlen + 1)
    (by omega)
  refine ⟨by rw [hv], by rw [h56]; omega, ?_, ?_, ?_, ?_⟩
  · rw [ha]
    cases env.malloc_ok <;> simp
  · intro hm hcal
    simp only [fi_ibv_msg_xrc_ep_connect, hv, hS, ne_eq, not_true_eq_false, if_false,
      h1, hmax, hmod, ha, hm, if_true, hcal]
    by_cases h0 : ep.srqn = 0 <;> simp [h0, xrc_paramlen]
  · intro hm
    simp only [fi_ibv_msg_xrc_ep_accept, hv, hS, ne_eq, not_true_eq_false, if_false,
      h1, hmax, hmod, ha, hm, if_true]
    by_cases h0 : ep.srqn = 0 <;> simp [h0, xrc_paramlen]
  · intro n hn
    by_cases h : 43 < n
    · rw [alloc_xrc_params_overflow E env _ (n + 1) (by omega) (by omega)]
      simp [h]
    · rw [alloc_xrc_params_ok E env _ (n + 1) (by omega)]
      cases env.malloc_ok <;> simp [h]

/-- Claim C1, at a concrete input: with a full send queue and a drain that
returns 0, `post_send` is called exactly twice. -/
theorem send_retries_post_once_witness :
    (new_calls state_three_unsignaled
      (fi_ibv_send_poll_cq_if_needed linux state_three_unsignaled).2).count
        verbs_call.post_send = 2 :=
  (send_retries_post_once linux state_three_unsignaled).2.2.1.mpr
    ⟨⟨12, by decide, by decide, by decide⟩, by decide⟩

/-- Claim C2 as stated fails: the post returns `-1` with `errno = 0`, which
`fi_ibv_handle_post` does not map to `-FI_EAGAIN`, and the call returns `0`,
not a strictly negative value. -/
theorem send_fatal_post_counterexample :
    state_post_minus_one.posts = [{ ret := -1, errno := 0 }] ∧
    (-1 : Int) ≠ 0 ∧
    fi_ibv_handle_post linux 0 (-1) ≠ -linux.FI_EAGAIN ∧
    (fi_ibv_send_poll_cq_if_needed linux state_post_minus_one).1 = some 0 ∧
    ¬ ((0 : Int) < 0) := by
  decide

/-- Claim C2, at a concrete input: a post that returns `EINVAL` is made
once and the call returns `-22`. -/
theorem send_fatal_post_not_retried_witness :
    fi_ibv_send_poll_cq_if_needed linux state_post_einval =
      (some (-22),
       { state_post_einval with posts := [], errno := 0,
                                trace := [verbs_call.post_send] }) ∧
    fi_ibv_handle_post linux 0 22 < 0 :=
  ⟨(send_fatal_post_not_retried linux state_post_einval { ret := 22, errno := 0 } []
      rfl (by decide) (by decide)).1,
   (send_fatal_post_not_retried linux state_post_einval { ret := 22, errno := 0 } []
      rfl (by decide) (by decide)).2.2.2.2.2 (by decide)⟩

/-- Claim C3, at the scenario of the specification: three unsignaled
completions are drained and the retried post succeeds. -/
theorem drain_then_retry_invisible_witness :
    (fi_ibv_send_poll_cq_if_needed linux state_three_unsignaled).1 = some 0 ∧
    (fi_ibv_send_poll_cq_if_needed linux state_three_unsignaled).2.wcq =
      [{ wc := wc_signaled 1 }] :=
  drain_then_retry_invisible linux state_three_unsignaled
    { ret := 12, errno := 0 } { ret := 0, errno := 0 } []
    [[wc_unsignaled, wc_unsignaled, wc_unsignaled]] { ret := 0, wc := [] } []
    (by decide) rfl (by decide) (by decide) rfl (by decide) rfl rfl

/-- Claim C4, at a concrete input: of five completions in two batches the
three signaled ones are cached, in order. -/
theorem reap_caches_requested_witness :
    (fi_ibv_poll_reap_unsig_cq linux state_mixed_batches).1 = some 0 ∧
    (fi_ibv_poll_reap_unsig_cq linux state_mixed_batches).2.wcq =
      [{ wc := wc_signaled 1 }, { wc := wc_signaled 5 }, { wc := wc_signaled 7 },
       { wc := wc_signaled 8 }] :=
  ⟨(reap_caches_requested linux state_mixed_batches
      [[wc_unsignaled, wc_signaled 5, wc_unsignaled], [wc_signaled 7, wc_signaled 8]]
      { ret := 0, wc := [] } [] [] rfl rfl rfl (by decide) (by decide)).1,
   (reap_caches_requested linux state_mixed_batches
      [[wc_unsignaled, wc_signaled 5, wc_unsignaled], [wc_signaled 7, wc_signaled 8]]
      { ret := 0, wc := [] } [] [] rfl rfl rfl (by decide) (by decide)).2.1⟩

/-- Claim C5, at a concrete input: polling skips the unsignaled completion
and stops at the signaled one. -/
theorem process_wc_hides_unrequested_witness :
    (fi_ibv_process_wc_poll_new state_poll_new wc_unsignaled).1 = some 1 ∧
    (fi_ibv_process_wc_poll_new state_poll_new wc_unsignaled).2.1 = wc_signaled 3 ∧
    (fi_ibv_process_wc_poll_new state_poll_new wc_unsignaled).2.2.polls =
      [batch_reply [wc_signaled 4]] ∧
    new_calls state_poll_new
        (fi_ibv_process_wc_poll_new state_poll_new wc_unsignaled).2.2 =
      [verbs_call.poll_cq 1, verbs_call.poll_cq 1] :=
  (process_wc_hides_unrequested.2.2.1 state_poll_new wc_unsignaled [wc_unsignaled]
    (batch_reply [wc_signaled 3]) [batch_reply [wc_signaled 4]] rfl (by decide) rfl).2
    (wc_signaled 3) (by decide) rfl (by decide)

/-- Claim C6 as stated fails: rejecting an XRC request with 44 parameter
bytes, all calls succeeding, returns `-FI_EINVAL` though `44 ≤ 55`; the same
request with 43 bytes is rejected with return value 0. -/
theorem cm_oversized_payload_counterexample :
    44 ≤ VERBS_CM_DATA_SIZE ∧
    fi_ibv_msg_ep_reject linux cm_env_ok xrc_connreq (List.replicate 44 0) 44 =
      (-linux.FI_EINVAL, [cm_call.free_connreq]) ∧
    (fi_ibv_msg_ep_reject linux cm_env_ok xrc_connreq (List.replicate 43 0) 43).1 = 0 := by
  decide

/-- Claim C6, at a concrete input: 56 parameter bytes are refused by connect
without any call. -/
theorem cm_oversized_payload_rejected_witness :
    fi_ibv_msg_ep_connect linux librdmacm cm_env_ok ep_fresh (List.replicate 56 0) 56 =
      (-22, []) :=
  ((cm_oversized_payload_rejected linux librdmacm cm_env_ok ep_fresh rc_connreq
    (List.replicate 56 0) 56).2.1 (by decide)).1

/-- Claim C7, at a concrete input: three parameter bytes give the private
data `3, 1, 2, 3` of length 4. -/
theorem cm_private_data_encoding_witness :
    (fi_ibv_msg_ep_connect linux librdmacm cm_env_ok ep_fresh [1, 2, 3] 3).2.filterMap
        handed_private_data = [(4, [3, 1, 2, 3])] :=
  ((cm_private_data_encoding linux librdmacm cm_env_ok ep_fresh rc_connreq [1, 2, 3] 3
    rfl (by decide)).2.2.2.2.1 (Or.inr rfl)).1

/-- Claim C8, at a concrete input: an enabled XRC endpoint is refused 44
parameter bytes and granted 43. -/
theorem xrc_cm_common_verify_spec_witness :
    fi_ibv_msg_xrc_cm_common_verify linux cm_env_ok xrc_ep_enabled 44 = (-22, []) ∧
    fi_ibv_msg_xrc_cm_common_verify linux cm_env_ok xrc_ep_enabled 43 = (0, []) :=
  ⟨((xrc_cm_common_verify_spec linux cm_env_ok xrc_ep_enabled [] 44).2.2.1
      rfl (by decide)).1,
   ((xrc_cm_common_verify_spec linux cm_env_ok xrc_ep_enabled [] 43).2.2.1
      rfl (by decide)).1⟩

/-- Claim C9, at a concrete input: 43 parameter bytes reach
`fi_ibv_connect_xrc` as 56 bytes. -/
theorem xrc_cm_payload_fits_witness :
    (fi_ibv_msg_xrc_ep_connect linux cm_env_ok xrc_ep_enabled
        (List.replicate 43 9) 43).2.2.filterMap xrc_paramlen = [56] :=
  (xrc_cm_payload_fits linux cm_env_ok xrc_ep_enabled (List.replicate 43 9) 43
    rfl rfl (Or.inl (by decide)) (by decide)).2.2.2.1 rfl rfl

/-- Claim C10, at a concrete input: rejecting an XRC request whose
parameter allocation overflows still frees the request once. -/
theorem reject_consumes_connreq_witness :
    (fi_ibv_msg_ep_reject linux cm_env_ok xrc_connreq (List.replicate 50 0) 50).2.count
        cm_call.free_connreq = 1 :=
  ((reject_consumes_connreq linux cm_env_ok xrc_connreq (List.replicate 50 0) 50).1
    (by decide)).1

/-! ## Theorems, continued -/

/-- Rejecting an XRC request with at most 43 parameter bytes, the
allocation succeeding. -/
theorem xrc_reject_value (E : errno_h) (env : cm_env) (connreq : fi_ibv_connreq)
    (param : List Nat) (paramlen : Nat)
    (hS : E.FI_SUCCESS = 0) (hx : connreq.is_xrc = true)
    (hlen : param.length = paramlen) (h43 : paramlen ≤ 43)
    (hm : env.malloc_ok = true) :
    fi_ibv_msg_ep_reject E env connreq param paramlen =
      (rdma_result env,
       [cm_call.malloc (paramlen + 13),
        cm_call.rdma_reject
          (cm_buf.xrc
            { hdr := xrc_hdr.set connreq.xrc.is_reciprocal connreq.xrc.conn_tag
                       connreq.xrc.port 0,
              body := paramlen :: param })
          (paramlen + 13),
        cm_call.free_cm_data, cm_call.free_connreq]) := by
  obtain ⟨h55, _, h1, _, _⟩ := cm_data_size_values
  have hn : ¬ (paramlen > 55) := by omega
  have hmod : (1 + paramlen) % 256 = paramlen + 1 := by omega
  have hmod2 : (paramlen + 1 + 12) % 256 = paramlen + 13 := by omega
  have hp := prepare_cm_data_exact param paramlen hlen (by omega)
  have htake : List.take (paramlen + 1) (paramlen :: param) = paramlen :: param := by
    apply List.take_of_length_le
    simp [hlen]
  simp only [fi_ibv_msg_ep_reject, h55, hn, if_false, hx, if_true, h1, hmod,
    fi_ibv_msg_xrc_ep_reject, hp, cm_hdr_bytes]
  rw [alloc_xrc_params_ok E env _ (paramlen + 1) (by omega)]
  simp [hm, hS, htake, hmod2]

/-- Claim C12: rejecting an XRC request whose payload fits (`paramlen ≤ 43`,
the allocation succeeding) hands `rdma_reject` a buffer that begins with the
XRC header as `fi_ibv_set_xrc_cm_data` fills it from the request's own
`xrc.is_reciprocal`, `xrc.conn_tag` and `xrc.port` with `param` 0, followed
by the length byte `paramlen` and the caller's bytes; the length passed is
`paramlen + 13`, the 12 header bytes plus the bytes behind them. -/
theorem xrc_reject_reencodes_request (E : errno_h) (env : cm_env)
    (connreq : fi_ibv_connreq) (param : List Nat) (paramlen : Nat)
    (hS : E.FI_SUCCESS = 0) (hx : connreq.is_xrc = true)
    (hlen : param.length = paramlen) (h43 : paramlen ≤ 43)
    (hm : env.malloc_ok = true) :
    (fi_ibv_msg_ep_reject E env connreq param paramlen).2 =
      [cm_call.malloc (paramlen + 13),
       cm_call.rdma_reject
         (cm_buf.xrc
           { hdr := xrc_hdr.set connreq.xrc.is_reciprocal connreq.xrc.conn_tag
                      connreq.xrc.port 0,
             body := paramlen :: param })
         (paramlen + 13),
       cm_call.free_cm_data, cm_call.free_connreq] ∧
    sizeof_fi_ibv_xrc_cm_data + (paramlen :: param).length = paramlen + 13 := by
  refine ⟨?_, ?_⟩
  · rw [xrc_reject_value E env connreq param paramlen hS hx hlen h43 hm]
  · simp [hlen, sizeof_fi_ibv_xrc_cm_data]; omega

/-- Return value of `fi_ibv_msg_ep_reject` for `paramlen ≤ 55`. -/
theorem reject_value_cases (E : errno_h) (env : cm_env) (connreq : fi_ibv_connreq)
    (param : List Nat) (paramlen : Nat) (h : paramlen ≤ 55) :
    (connreq.is_xrc = false →
      (fi_ibv_msg_ep_reject E env connreq param paramlen).1 = rdma_result env) ∧
    (connreq.is_xrc = true → paramlen ≤ 43 → E.FI_SUCCESS = 0 →
      (fi_ibv_msg_ep_reject E env connreq param paramlen).1 =
        (if env.malloc_ok then rdma_result env else -E.FI_ENOMEM)) ∧
    (connreq.is_xrc = true → 43 < paramlen →
      fi_ibv_msg_ep_reject E env connreq param paramlen =
        (-E.FI_EINVAL, [cm_call.free_connreq])) := by
  obtain ⟨h55, _, h1, _, _⟩ := cm_data_size_values
  have hn : ¬ (paramlen > 55) := by omega
  have hm : (1 + paramlen) % 256 = paramlen + 1 := by omega
  refine ⟨?_, ?_, ?_⟩
  · intro hx
    simp [fi_ibv_msg_ep_reject, h55, hn, hx]
  · intro hx h43 hS
    simp only [fi_ibv_msg_ep_reject, h55, hn, if_false, hx, if_true, h1, hm,
      fi_ibv_msg_xrc_ep_reject]
    rw [alloc_xrc_params_ok E env _ (paramlen + 1) (by omega)]
    cases env.malloc_ok <;> simp [hS]
  · intro hx h43
    simp only [fi_ibv_msg_ep_reject, h55, hn, if_false, hx, if_true, h1, hm,
      fi_ibv_msg_xrc_ep_reject]
    rw [alloc_xrc_params_overflow E env _ (paramlen + 1) (by omega) (by omega)]
    simp

/-- Claim C13, amended: `fi_ibv_msg_ep_reject` returns 0 whenever
`rdma_reject` succeeds, for a non-XRC request and every `paramlen ≤ 55`, and
for an XRC request, the allocation succeeding, and every `paramlen ≤ 43`;
for an XRC request and `43 < paramlen ≤ 55` it returns `-FI_EINVAL`. -/
theorem reject_once_succeeds (E : errno_h) (env : cm_env) (connreq : fi_ibv_connreq)
    (param : List Nat) (paramlen : Nat) (hr : env.rdma_ret = 0) :
    (connreq.is_xrc = false → paramlen ≤ VERBS_CM_DATA_SIZE →
      (fi_ibv_msg_ep_reject E env connreq param paramlen).1 = 0) ∧
    (connreq.is_xrc = true → paramlen ≤ 43 → E.FI_SUCCESS = 0 →
      env.malloc_ok = true →
      (fi_ibv_msg_ep_reject E env connreq param paramlen).1 = 0) ∧
    (connreq.is_xrc = true → 43 < paramlen → paramlen ≤ VERBS_CM_DATA_SIZE →
      (fi_ibv_msg_ep_reject E env connreq param paramlen).1 = -E.FI_EINVAL) := by
  obtain ⟨h55, _, _, _, _⟩ := cm_data_size_values
  have h0 : rdma_result env = 0 := by simp [rdma_result, hr]
  refine ⟨?_, ?_, ?_⟩
  · intro hx hp
    rw [h55] at hp
    rw [(reject_value_cases E env connreq param paramlen hp).1 hx, h0]
  · intro hx h43 hS hm
    rw [(reject_value_cases E env connreq param paramlen (by omega)).2.1 hx h43 hS, hm,
      if_pos rfl, h0]
  · intro hx h43 hp
    rw [h55] at hp
    rw [(reject_value_cases E env connreq param paramlen hp).2.2 hx h43]

/-- Claim C14: `fi_ibv_msg_ep_setname` returns `-FI_EINVAL` without any call
when `addrlen` differs from `info->src_addrlen`; on every failing return
(length mismatch, `malloc` failure with `-FI_ENOMEM`, failure of
`fi_ibv_create_ep`) the endpoint is as before the call, in particular
`info->src_addr`, `id` and `ibv_qp`; on success (return 0) `src_addr` is a new
buffer holding the first `src_addrlen` bytes of `addr`, and `id` and `ibv_qp`
are those of the newly created identifier. -/
theorem setname_atomic_on_error (E : errno_h) (env : setname_env) (ep : fi_ibv_ep_name)
    (addr : List Nat) (addrlen : Nat) :
    (addrlen ≠ ep.src_addrlen →
      fi_ibv_msg_ep_setname E env ep addr addrlen = (-E.FI_EINVAL, ep, [])) ∧
    (addrlen = ep.src_addrlen → env.malloc_ptr = none →
      (fi_ibv_msg_ep_setname E env ep addr addrlen).1 = -E.FI_ENOMEM ∧
      (fi_ibv_msg_ep_setname E env ep addr addrlen).2.1 = ep) ∧
    (addrlen = ep.src_addrlen → env.malloc_ptr ≠ none → env.create_ep_ret ≠ 0 →
      (fi_ibv_msg_ep_setname E env ep addr addrlen).1 = env.create_ep_ret ∧
      (fi_ibv_msg_ep_setname E env ep addr addrlen).2.1 = ep) ∧
    ((fi_ibv_msg_ep_setname E env ep addr addrlen).1 ≠ 0 →
      (fi_ibv_msg_ep_setname E env ep addr addrlen).2.1 = ep) ∧
    (∀ p, addrlen = ep.src_addrlen → env.malloc_ptr = some p → env.create_ep_ret = 0 →
      (fi_ibv_msg_ep_setname E env ep addr addrlen).1 = 0 ∧
      (fi_ibv_msg_ep_setname E env ep addr addrlen).2.1.src_addr =
        some { ptr := p, bytes := addr.take ep.src_addrlen } ∧
      (fi_ibv_msg_ep_setname E env ep addr addrlen).2.1.id = some env.create_ep_id ∧
      (fi_ibv_msg_ep_setname E env ep addr addrlen).2.1.ibv_qp = env.create_ep_id.qp ∧
      (fi_ibv_msg_ep_setname E env ep addr addrlen).2.1.src_addrlen = ep.src_addrlen) := by
  refine ⟨?_, ?_, ?_, ?_, ?_⟩
  · intro h
    simp [fi_ibv_msg_ep_setname, h]
  · intro h hm
    simp [fi_ibv_msg_ep_setname, h, hm]
  · intro h hm hc
    obtain ⟨p, hp⟩ := Option.ne_none_iff_exists'.mp hm
    simp [fi_ibv_msg_ep_setname, h, hp, hc]
  · intro hret
    by_cases h : addrlen = ep.src_addrlen
    · cases hm : env.malloc_ptr with
      | none => simp [fi_ibv_msg_ep_setname, h, hm]
      | some p =>
        by_cases hc : env.create_ep_ret = 0
        · simp [fi_ibv_msg_ep_setname, h, hm, hc] at hret
        · simp [fi_ibv_msg_ep_setname, h, hm, hc]
    · simp [fi_ibv_msg_ep_setname, h]
  · intro p h hm hc
    simp [fi_ibv_msg_ep_setname, h, hm, hc]

/-- `fi_ibv_msg_xrc_ep_connect` once the verification has succeeded. -/
theorem xrc_connect_value (E : errno_h) (env : cm_env) (ep : fi_ibv_xrc_ep)
    (param : List Nat) (paramlen : Nat)
    (hS : E.FI_SUCCESS = 0)
    (hx : fi_ibv_is_xrc ep.base_ep.info = true)
    (hen : ep.srqn ≠ 0 ∨ env.fi_control_ret = 0)
    (h43 : paramlen ≤ 43) :
    fi_ibv_msg_xrc_ep_connect E env ep param paramlen =
      if env.malloc_ok = false then
        (-E.FI_ENOMEM, ep,
          (if ep.srqn = 0 then [cm_call.fi_control_enable] else []) ++
            [cm_call.malloc (paramlen + 13)])
      else if env.calloc_ok = false then
        (-E.FI_ENOMEM, { ep with conn_setup := none },
          (if ep.srqn = 0 then [cm_call.fi_control_enable] else []) ++
            [cm_call.malloc (paramlen + 13), cm_call.calloc_conn_setup,
             cm_call.free_cm_data])
      else
        (env.xrc_ret, { ep with conn_setup := some { conn_tag := env.conn_tag } },
          (if ep.srqn = 0 then [cm_call.fi_control_enable] else []) ++
            [cm_call.malloc (paramlen + 13), cm_call.calloc_conn_setup,
             cm_call.eq_lock_acquire, cm_call.fi_ibv_eq_set_xrc_conn_tag,
             cm_call.eq_lock_release,
             cm_call.fi_ibv_connect_xrc 0
               { hdr := xrc_hdr.uninit,
                 body := (cm_hdr_bytes
                   (fi_ibv_msg_ep_prepare_cm_data param paramlen)).take (paramlen + 1) }
               (paramlen + 13),
             cm_call.free_cm_data]) := by
  obtain ⟨hV, h12, h1, h56, hmax⟩ := cm_data_size_values
  have hc : ¬ (ep.srqn = 0 ∧ env.fi_control_ret ≠ 0) := by
    rcases hen with h | h <;> simp [h]
  have hg : ¬ (paramlen > VERBS_CM_DATA_SIZE - sizeof_fi_ibv_xrc_cm_data) := by
    rw [hV, h12]; omega
  have hv : fi_ibv_msg_xrc_cm_common_verify E env ep paramlen =
      (E.FI_SUCCESS, if ep.srqn = 0 then [cm_call.fi_control_enable] else []) := by
    simp only [fi_ibv_msg_xrc_cm_common_verify, hx, hc, hg, if_false]
    simp
  have hmod : (paramlen + 1) % 18446744073709551616 = paramlen + 1 := by omega
  have ha := alloc_xrc_params_ok E env
    (cm_hdr_bytes (fi_ibv_msg_ep_prepare_cm_data param paramlen)) (paramlen + 1)
    (by omega)
  simp only [fi_ibv_msg_xrc_ep_connect, hv, hS, ne_eq, not_true_eq_false, if_false,
    h1, hmax, hmod, ha]
  cases hm : env.malloc_ok
  · simp
  · cases hcal : env.calloc_ok <;> simp

/-- Claim C15, amended: `fi_ibv_msg_xrc_ep_connect` does not test the
connection tag.  Once verification and both allocations have succeeded it
stores the tag that `fi_ibv_eq_set_xrc_conn_tag` left (also
`VERBS_CONN_TAG_INVALID`), calls `fi_ibv_connect_xrc` once and returns what
that call returns.  Its own resource-exhaustion error is `-FI_ENOMEM`, when
the parameter buffer or the setup record cannot be allocated, and then
`fi_ibv_connect_xrc` is not called. -/
theorem xrc_connect_ignores_tag (E : errno_h) (env : cm_env) (ep : fi_ibv_xrc_ep)
    (param : List Nat) (paramlen : Nat)
    (hS : E.FI_SUCCESS = 0)
    (hx : fi_ibv_is_xrc ep.base_ep.info = true)
    (hen : ep.srqn ≠ 0 ∨ env.fi_control_ret = 0)
    (h43 : paramlen ≤ 43) :
    (env.malloc_ok = true → env.calloc_ok = true →
      (fi_ibv_msg_xrc_ep_connect E env ep param paramlen).1 = env.xrc_ret ∧
      (fi_ibv_msg_xrc_ep_connect E env ep param paramlen).2.1.conn_setup =
        some { conn_tag := env.conn_tag } ∧
      (fi_ibv_msg_xrc_ep_connect E env ep param paramlen).2.2.filterMap xrc_paramlen =
        [paramlen + 13]) ∧
    (env.malloc_ok = false ∨ env.calloc_ok = false →
      (fi_ibv_msg_xrc_ep_connect E env ep param paramlen).1 = -E.FI_ENOMEM ∧
      (fi_ibv_msg_xrc_ep_connect E env ep param paramlen).2.2.filterMap xrc_paramlen =
        []) := by
  rw [xrc_connect_value E env ep param paramlen hS hx hen h43]
  refine ⟨?_, ?_⟩
  · intro hm hc
    simp only [hm, hc, Bool.true_eq_false, if_false]
    by_cases h0 : ep.srqn = 0 <;> simp [h0, xrc_paramlen]
  · intro h
    cases hm : env.malloc_ok
    · simp only [if_true]
      by_cases h0 : ep.srqn = 0 <;> simp [h0, xrc_paramlen]
    · have hc : env.calloc_ok = false := by
        rcases h with h | h
        · rw [hm] at h; exact absurd h (by decide)
        · exact h
      simp only [hc, Bool.true_eq_false, if_false, if_true]
      by_cases h0 : ep.srqn = 0 <;> simp [h0, xrc_paramlen]

/-- The three outcomes of `fi_ibv_msg_alloc_xrc_params`. -/
theorem alloc_xrc_params_cases (E : errno_h) (env : cm_env) (param : List Nat)
    (n : Nat) :
    fi_ibv_msg_alloc_xrc_params E env param n = (-E.FI_EINVAL, none, n, []) ∨
    (env.malloc_ok = false ∧ ∃ m,
      fi_ibv_msg_alloc_xrc_params E env param n =
        (-E.FI_ENOMEM, none, n, [cm_call.malloc m])) ∨
    (env.malloc_ok = true ∧ ∃ m b,
      fi_ibv_msg_alloc_xrc_params E env param n =
        (E.FI_SUCCESS, some b, m, [cm_call.malloc m])) := by
  unfold fi_ibv_msg_alloc_xrc_params
  simp only
  by_cases h1 : (sizeof_fi_ibv_xrc_cm_data + n) % SIZE_MAX_succ > FI_IBV_CM_DATA_SIZE
  · left
    simp [h1]
  · right
    cases hm : env.malloc_ok
    · left
      exact ⟨rfl, (sizeof_fi_ibv_xrc_cm_data + n) % SIZE_MAX_succ, by simp [h1]⟩
    · right
      exact ⟨rfl, (sizeof_fi_ibv_xrc_cm_data + n) % SIZE_MAX_succ,
        { hdr := xrc_hdr.uninit, body := if n ≠ 0 then param.take n else [] },
        by simp [h1]⟩

/-- The outcomes of `fi_ibv_msg_xrc_ep_connect`: it returns before any
allocation, or after a failed or refused parameter allocation, or after a
failed allocation of the setup record, or it returns what
`fi_ibv_connect_xrc` returned. -/
theorem xrc_connect_outcomes (E : errno_h) (env : cm_env) (ep : fi_ibv_xrc_ep)
    (param : List Nat) (paramlen : Nat) (hS : E.FI_SUCCESS = 0) :
    (∃ ret calls, fi_ibv_msg_xrc_ep_connect E env ep param paramlen = (ret, ep, calls) ∧
        cm_call.fi_ibv_eq_set_xrc_conn_tag ∉ calls ∧
        calls.count cm_call.free_cm_data = 0 ∧
        (calls.filter is_malloc).length ≤ 1 ∧
        (env.malloc_ok = true → (calls.filter is_malloc).length = 0)) ∨
    (∃ calls, fi_ibv_msg_xrc_ep_connect E env ep param paramlen =
          (-E.FI_ENOMEM, { ep with conn_setup := none }, calls) ∧
        cm_call.fi_ibv_eq_set_xrc_conn_tag ∉ calls ∧
        calls.count cm_call.free_cm_data = 1 ∧
        (calls.filter is_malloc).length = 1 ∧ env.malloc_ok = true) ∨
    (∃ calls, fi_ibv_msg_xrc_ep_connect E env ep param paramlen =
          (env.xrc_ret, { ep with conn_setup := some { conn_tag := env.conn_tag } },
            calls) ∧
        cm_call.fi_ibv_eq_set_xrc_conn_tag ∈ calls ∧
        calls.count cm_call.free_cm_data = 1 ∧
        (calls.filter is_malloc).length = 1 ∧ env.malloc_ok = true) := by
  have hcv := common_verify_calls E env ep paramlen
  have hvm : ∀ c ∈ (fi_ibv_msg_xrc_cm_common_verify E env ep paramlen).2,
      c ≠ cm_call.fi_ibv_eq_set_xrc_conn_tag ∧ c ≠ cm_call.free_cm_data ∧
      is_malloc c = false := by
    intro c hc
    rw [hcv c hc]
    exact ⟨by decide, by decide, rfl⟩
  have hv1 : cm_call.fi_ibv_eq_set_xrc_conn_tag ∉
      (fi_ibv_msg_xrc_cm_common_verify E env ep paramlen).2 :=
    fun h => (hvm _ h).1 rfl
  have hv2 : (fi_ibv_msg_xrc_cm_common_verify E env ep paramlen).2.count
      cm_call.free_cm_data = 0 :=
    List.count_eq_zero.mpr (fun h => (hvm _ h).2.1 rfl)
  have hv3 : (fi_ibv_msg_xrc_cm_common_verify E env ep paramlen).2.filter is_malloc = [] := by
    rw [List.filter_eq_nil_iff]
    intro c hc
    simp [(hvm c hc).2.2]
  unfold fi_ibv_msg_xrc_ep_connect
  rcases hq : fi_ibv_msg_xrc_cm_common_verify E env ep paramlen with ⟨ret, calls⟩
  rw [hq] at hv1 hv2 hv3
  simp only at hv1 hv2 hv3 ⊢
  by_cases hr : ret = 0
  swap
  · left
    exact ⟨ret, calls, by simp [hr], hv1, hv2, by simp [hv3], by simp [hv3]⟩
  · simp only [hr, ne_eq, not_true_eq_false, if_false]
    rcases alloc_xrc_params_cases E env
      (cm_hdr_bytes (fi_ibv_msg_ep_prepare_cm_data param paramlen))
      ((paramlen + sizeof_fi_ibv_cm_data_hdr) % SIZE_MAX_succ) with
      ha | ⟨hm, m, ha⟩ | ⟨hm, m, b, ha⟩
    · left
      rw [ha]
      exact ⟨_, _, rfl, by simpa using hv1, by simpa [List.count_append] using hv2,
        by simp [hv3], by intro _; simp [hv3]⟩
    · left
      rw [ha]
      refine ⟨_, _, rfl, by simpa using hv1, ?_, ?_, ?_⟩
      · simp [List.count_append, hv2, List.count_cons]
      · simp [List.filter_append, hv3, is_malloc, List.filter_cons]
      · intro hm'
        rw [hm] at hm'
        exact absurd hm' (by decide)
    · rw [ha]
      simp only [hS, ne_eq, not_true_eq_false, if_false]
      cases hc : env.calloc_ok
      · right; left
        simp only [Bool.not_false, if_true]
        refine ⟨_, rfl, by simpa using hv1, ?_, ?_, hm⟩
        · simp [List.count_append, hv2, List.count_cons]
        · simp [List.filter_append, hv3, is_malloc, List.filter_cons]
      · right; right
        simp only [Bool.not_true, Bool.false_eq_true, if_false]
        refine ⟨_, rfl, by simp, ?_, ?_, hm⟩
        · simp [List.count_append, hv2, List.count_cons]
        · simp [List.filter_append, hv3, is_malloc, List.filter_cons]

/-- Claim C18: `fi_ibv_handle_post` returns `-FI_EAGAIN` when `ret` is `ENOMEM`
or `-ENOMEM`, or when `ret` is `-1` and `errno` is `ENOMEM`; `-errno` when
`ret` is `-1` and `errno` is not `ENOMEM`; and `-|ret|` for every other `ret`,
so that 0 maps to 0 and a positive `n` and `-n` both map to `-n`.  `ENOMEM` is
none of 0, 1 and -1, as the distinct `case` labels of the `switch` require. -/
theorem handle_post_normalises (E : errno_h) (errno ret : Int)
    (h0 : E.ENOMEM ≠ 0) (h1 : E.ENOMEM ≠ 1) (hm1 : E.ENOMEM ≠ -1) :
    (ret = E.ENOMEM ∨ ret = -E.ENOMEM →
      fi_ibv_handle_post E errno ret = -E.FI_EAGAIN) ∧
    (ret = -1 → errno = E.ENOMEM → fi_ibv_handle_post E errno ret = -E.FI_EAGAIN) ∧
    (ret = -1 → errno ≠ E.ENOMEM → fi_ibv_handle_post E errno ret = -errno) ∧
    (ret ≠ E.ENOMEM → ret ≠ -E.ENOMEM → ret ≠ -1 →
      fi_ibv_handle_post E errno ret = -|ret|) ∧
    fi_ibv_handle_post E errno 0 = 0 ∧
    (∀ n : Int, 0 < n → n ≠ 1 → n ≠ E.ENOMEM → n ≠ -E.ENOMEM →
      fi_ibv_handle_post E errno n = -n ∧ fi_ibv_handle_post E errno (-n) = -n) := by
  have hother : ∀ r : Int, r ≠ E.ENOMEM → r ≠ -E.ENOMEM → r ≠ -1 →
      fi_ibv_handle_post E errno r = -|r| := by
    intro r a b c
    unfold fi_ibv_handle_post
    rw [if_neg (by rintro (h | h) <;> [exact b h; exact a h]), if_neg c]
  have hminus : ¬ ((-1 : Int) = -E.ENOMEM ∨ (-1 : Int) = E.ENOMEM) := by
    rintro (h | h) <;> omega
  refine ⟨?_, ?_, ?_, hother ret, ?_, ?_⟩
  · intro h
    unfold fi_ibv_handle_post
    rw [if_pos (by rcases h with h | h <;> [exact Or.inr h; exact Or.inl h])]
  · intro hr he
    subst hr
    unfold fi_ibv_handle_post
    rw [if_neg hminus, if_pos rfl, if_pos he]
  · intro hr he
    subst hr
    unfold fi_ibv_handle_post
    rw [if_neg hminus, if_pos rfl, if_neg he]
  · rw [hother 0 (by omega) (by omega) (by omega)]
    simp
  · intro n hn hn1 ha hb
    constructor
    · rw [hother n ha hb (by omega), abs_of_pos hn]
    · rw [hother (-n) (by omega) (by omega) (by omega), abs_neg, abs_of_pos hn]

/-- Calls of the `for` loop of the drain are pool allocations. -/
theorem for_trace_allocs (E : errno_h) (wcs : List ibv_wc) :
    ∀ s : verbs_state, ∃ l : List verbs_call,
      (fi_ibv_poll_reap_unsig_cq_for E wcs s).2.trace = s.trace ++ l ∧
      ∀ c ∈ l, c = verbs_call.buf_alloc := by
  induction wcs with
  | nil => intro s; exact ⟨[], by simp [fi_ibv_poll_reap_unsig_cq_for]⟩
  | cons wc wcs ih =>
    intro s
    unfold fi_ibv_poll_reap_unsig_cq_for
    by_cases h0 : fi_ibv_process_wc wc = 0
    · simp only [h0, if_true]; exact ih s
    · simp only [h0, if_false]
      have ht := fi_ibv_wc_2_wce_trace E s wc
      rcases hq : fi_ibv_wc_2_wce E s wc with ⟨o, s1⟩
      rw [hq] at ht
      simp only at ht
      rcases o with _ | ⟨ret, wce⟩
      · exact ⟨[verbs_call.buf_alloc], ht, by simp⟩
      · have key : ∀ s2 : verbs_state, s2.trace = s1.trace →
            ∃ l : List verbs_call,
              (fi_ibv_poll_reap_unsig_cq_for E wcs s2).2.trace = s.trace ++ l ∧
              ∀ c ∈ l, c = verbs_call.buf_alloc := by
          intro s2 h2
          obtain ⟨l, hl, hn⟩ := ih s2
          refine ⟨verbs_call.buf_alloc :: l, ?_, ?_⟩
          · rw [hl, h2, ht]; simp
          · intro c hc
            rcases List.mem_cons.mp hc with h | h
            · exact h
            · exact hn c h
        by_cases hr : ret = 0
        · simp only [hr, if_true]
          rcases wce with _ | e
          · exact key s1 rfl
          · exact key _ rfl
        · simp only [hr, if_false]
          exact key s1 rfl

/-- Calls of the `while` loop of the drain: polls and pool allocations,
closed by the release of the lock exactly when the loop returns. -/
theorem while_trace_lock (E : errno_h) (polls : List poll_reply) :
    ∀ s : verbs_state, ∃ mid : List verbs_call,
      (∀ c ∈ mid, is_lock_call c = false ∧ c ≠ verbs_call.post_send) ∧
      ((fi_ibv_poll_reap_unsig_cq_while E polls s).1 = none →
        (fi_ibv_poll_reap_unsig_cq_while E polls s).2.trace = s.trace ++ mid) ∧
      (∀ r, (fi_ibv_poll_reap_unsig_cq_while E polls s).1 = some r →
        (fi_ibv_poll_reap_unsig_cq_while E polls s).2.trace =
          s.trace ++ mid ++ [verbs_call.lock_release]) := by
  induction polls with
  | nil =>
    intro s
    refine ⟨[verbs_call.poll_cq 10], ?_, ?_, ?_⟩
    · intro c hc
      simp only [List.mem_singleton] at hc
      subst hc
      exact ⟨rfl, by decide⟩
    · intro _; rfl
    · intro r h
      simp [fi_ibv_poll_reap_unsig_cq_while] at h
  | cons r rest ih =>
    intro s
    unfold fi_ibv_poll_reap_unsig_cq_while
    by_cases hr : r.ret ≤ 0
    · simp only [hr, if_true]
      refine ⟨[verbs_call.poll_cq 10], ?_, ?_, ?_⟩
      · intro c hc
        simp only [List.mem_singleton] at hc
        subst hc
        exact ⟨rfl, by decide⟩
      · intro h; simp at h
      · intro _ _; simp
    · simp only [hr, if_false]
      obtain ⟨l1, hl1, hn1⟩ := for_trace_allocs E ((r.wc.take 10).take r.ret.toNat)
        { s with polls := rest, trace := s.trace ++ [verbs_call.poll_cq 10] }
      rcases hq : fi_ibv_poll_reap_unsig_cq_for E ((r.wc.take 10).take r.ret.toNat)
        { s with polls := rest, trace := s.trace ++ [verbs_call.poll_cq 10] } with ⟨b, s2⟩
      rw [hq] at hl1
      simp only at hl1
      have hmid1 : ∀ c ∈ verbs_call.poll_cq 10 :: l1,
          is_lock_call c = false ∧ c ≠ verbs_call.post_send := by
        intro c hc
        rcases List.mem_cons.mp hc with h | h
        · subst h; exact ⟨rfl, by decide⟩
        · rw [hn1 c h]; exact ⟨rfl, by decide⟩
      cases b
      · refine ⟨verbs_call.poll_cq 10 :: l1, hmid1, ?_, ?_⟩
        · intro _; simp [hl1]
        · intro r' h; simp at h
      · obtain ⟨mid, hm, hnone, hsome⟩ := ih s2
        refine ⟨verbs_call.poll_cq 10 :: l1 ++ mid, ?_, ?_, ?_⟩
        · intro c hc
          rcases List.mem_append.mp hc with h | h
          · exact hmid1 c h
          · exact hm c h
        · intro h
          simp only at h ⊢
          rw [hnone h, hl1]; simp
        · intro r' h
          simp only at h ⊢
          rw [hsome r' h, hl1]; simp

/-- Calls of the drain: the lock is taken first; polls and pool allocations
follow; the lock is given back last, exactly when the drain returns. -/
theorem reap_trace_lock (E : errno_h) (s : verbs_state) :
    ∃ mid : List verbs_call,
      (∀ c ∈ mid, is_lock_call c = false ∧ c ≠ verbs_call.post_send) ∧
      ((fi_ibv_poll_reap_unsig_cq E s).1 = none →
        (fi_ibv_poll_reap_unsig_cq E s).2.trace =
          s.trace ++ verbs_call.lock_acquire :: mid) ∧
      (∀ r, (fi_ibv_poll_reap_unsig_cq E s).1 = some r →
        (fi_ibv_poll_reap_unsig_cq E s).2.trace =
          s.trace ++ verbs_call.lock_acquire :: mid ++ [verbs_call.lock_release]) := by
  unfold fi_ibv_poll_reap_unsig_cq
  obtain ⟨mid, hm, hnone, hsome⟩ := while_trace_lock E s.polls
    { s with trace := s.trace ++ [verbs_call.lock_acquire] }
  refine ⟨mid, hm, ?_, ?_⟩
  · intro h; rw [hnone h]; simp
  · intro r h; rw [hsome r h]; simp



/-- Claim C19, amended: on every return path of `fi_ibv_poll_reap_unsig_cq`
the lock has been acquired exactly once, as the first call, and released
exactly once, as the last call.  In `fi_ibv_send_poll_cq_if_needed` the lock
is held across the drain only: whenever the post is retried, the calls made
are the first post, the acquire, the polls and pool allocations of the drain,
the release, and then the retried post, which is issued after the lock has
been released. -/
theorem lock_released_before_retry (E : errno_h) (s : verbs_state) :
    (∀ r, (fi_ibv_poll_reap_unsig_cq E s).1 = some r →
      ∃ mid : List verbs_call,
        new_calls s (fi_ibv_poll_reap_unsig_cq E s).2 =
          verbs_call.lock_acquire :: mid ++ [verbs_call.lock_release] ∧
        ∀ c ∈ mid, is_lock_call c = false) ∧
    ((new_calls s (fi_ibv_send_poll_cq_if_needed E s).2).count verbs_call.post_send = 2 →
      ∃ mid : List verbs_call,
        new_calls s (fi_ibv_send_poll_cq_if_needed E s).2 =
          verbs_call.post_send :: verbs_call.lock_acquire :: mid ++
            [verbs_call.lock_release, verbs_call.post_send] ∧
        ∀ c ∈ mid, is_lock_call c = false ∧ c ≠ verbs_call.post_send) := by
  refine ⟨?_, ?_⟩
  · intro r hr
    obtain ⟨mid, hm, _, hsome⟩ := reap_trace_lock E s
    exact ⟨mid, new_calls_append _ _ _ (by rw [hsome r hr]; simp),
      fun c hc => (hm c hc).1⟩
  · have hp := post_send_trace s
    unfold fi_ibv_send_poll_cq_if_needed
    rcases hq : post_send s with ⟨o, s1⟩
    rw [hq] at hp
    simp only at hp
    have n1 : new_calls s s1 = [verbs_call.post_send] := new_calls_append s s1 _ hp
    have c1 : (new_calls s s1).count verbs_call.post_send ≠ 2 := by
      rw [n1]; decide
    rcases o with _ | ret
    · intro h; exact absurd h c1
    · simp only
      by_cases h0 : ret = 0
      · simp only [h0, ne_eq, not_true_eq_false, if_false]
        intro h; exact absurd h c1
      · simp only [h0, ne_eq, not_false_eq_true, if_true]
        by_cases hA : fi_ibv_handle_post E s1.errno ret = -E.FI_EAGAIN
        swap
        · simp only [hA, if_false]
          intro h; exact absurd h c1
        · simp only [hA, if_true]
          obtain ⟨mid, hm, hnone, hsome⟩ := reap_trace_lock E s1
          have hcm : mid.count verbs_call.post_send = 0 :=
            List.count_eq_zero.mpr (fun h => (hm _ h).2 rfl)
          rcases hr : fi_ibv_poll_reap_unsig_cq E s1 with ⟨o2, s2⟩
          rw [hr] at hnone hsome
          simp only at hnone hsome
          rcases o2 with _ | d
          · simp only
            have n2 : new_calls s s2 =
                verbs_call.post_send :: verbs_call.lock_acquire :: mid :=
              new_calls_append s s2 _ (by rw [hnone rfl, hp]; simp)
            intro h
            rw [n2] at h
            simp [List.count_cons, hcm] at h
          · have hs2 := hsome d rfl
            simp only
            by_cases hd : d = 0
            · simp only [hd, ne_eq, not_true_eq_false, if_false]
              have hp3 := post_send_trace s2
              rcases hq3 : post_send s2 with ⟨o3, s3⟩
              rw [hq3] at hp3
              simp only at hp3
              have n3 : new_calls s s3 =
                  verbs_call.post_send :: verbs_call.lock_acquire :: mid ++
                    [verbs_call.lock_release, verbs_call.post_send] :=
                new_calls_append s s3 _ (by rw [hp3, hs2, hp]; simp)
              rcases o3 with _ | r3
              · intro _; exact ⟨mid, n3, hm⟩
              · intro _; exact ⟨mid, n3, hm⟩
            · simp only [hd, ne_eq, not_false_eq_true, if_true]
              have n2 : new_calls s s2 =
                  verbs_call.post_send :: verbs_call.lock_acquire :: mid ++
                    [verbs_call.lock_release] :=
                new_calls_append s s2 _ (by rw [hs2, hp]; simp)
              intro h
              rw [n2] at h
              simp [List.count_cons, List.count_append, hcm] at h

/-- Claim C19 as stated fails: in the drain-and-retry of the send queue that
is full, the lock is released before the retried `post_send` is issued. -/
theorem lock_across_retry_counterexample :
    new_calls state_three_unsignaled
        (fi_ibv_send_poll_cq_if_needed linux state_three_unsignaled).2 =
      [verbs_call.post_send, verbs_call.lock_acquire, verbs_call.poll_cq 10,
       verbs_call.poll_cq 10, verbs_call.lock_release, verbs_call.post_send] := by
  decide

/-- Claim C20: `struct fi_ibv_xrc_cm_data` is 12 bytes, with `version` at
offset 0, `reciprocal` at 1, `port` at 2, `param` at 4 and `conn_tag` at 8.  For
`paramlen ≤ 43` the buffer that `fi_ibv_msg_alloc_xrc_params` builds on the
XRC connect and accept paths holds, right behind that header, the length
byte `paramlen` followed by the caller's bytes, unchanged and in order; on
success `*paramlen` is the total length `paramlen + 13` and
`*adjusted_param` is not NULL; whenever `*adjusted_param` is not NULL the
allocation has returned `FI_SUCCESS`, so on failure it is NULL. -/
theorem xrc_payload_layout (E : errno_h) (env : cm_env) (ep : fi_ibv_xrc_ep)
    (param : List Nat) (paramlen : Nat)
    (hlen : param.length = paramlen) (h43 : paramlen ≤ 43) :
    struct_offsets 0 fi_ibv_xrc_cm_data_members =
      [(xrc_cm_data_member.version, 0), (xrc_cm_data_member.reciprocal, 1),
       (xrc_cm_data_member.port, 2), (xrc_cm_data_member.param, 4),
       (xrc_cm_data_member.conn_tag, 8)] ∧
    struct_size fi_ibv_xrc_cm_data_members = 12 ∧
    sizeof_fi_ibv_xrc_cm_data = struct_size fi_ibv_xrc_cm_data_members ∧
    (env.malloc_ok = true →
      fi_ibv_msg_alloc_xrc_params E env
          (cm_hdr_bytes (fi_ibv_msg_ep_prepare_cm_data param paramlen)) (paramlen + 1) =
        (E.FI_SUCCESS, some { hdr := xrc_hdr.uninit, body := paramlen :: param },
         paramlen + 13, [cm_call.malloc (paramlen + 13)])) ∧
    (env.malloc_ok = false →
      fi_ibv_msg_alloc_xrc_params E env
          (cm_hdr_bytes (fi_ibv_msg_ep_prepare_cm_data param paramlen)) (paramlen + 1) =
        (-E.FI_ENOMEM, none, paramlen + 1, [cm_call.malloc (paramlen + 13)])) ∧
    (∀ (bytes : List Nat) (n : Nat),
      (fi_ibv_msg_alloc_xrc_params E env bytes n).2.1 = none ∨
      (fi_ibv_msg_alloc_xrc_params E env bytes n).1 = E.FI_SUCCESS) ∧
    (E.FI_SUCCESS = 0 → fi_ibv_is_xrc ep.base_ep.info = true →
      (ep.srqn ≠ 0 ∨ env.fi_control_ret = 0) → env.malloc_ok = true →
      (env.calloc_ok = true →
        (fi_ibv_msg_xrc_ep_connect E env ep param paramlen).2.2.filterMap xrc_param_of =
          [({ hdr := xrc_hdr.uninit, body := paramlen :: param }, paramlen + 13)]) ∧
      (fi_ibv_msg_xrc_ep_accept E env ep param paramlen).2.filterMap xrc_param_of =
        [({ hdr := xrc_hdr.uninit, body := paramlen :: param }, paramlen + 13)]) := by
  have hp := prepare_cm_data_exact param paramlen hlen (by omega)
  have htake : List.take (paramlen + 1) (paramlen :: param) = paramlen :: param := by
    apply List.take_of_length_le
    simp [hlen]
  have ha := alloc_xrc_params_ok E env
    (cm_hdr_bytes (fi_ibv_msg_ep_prepare_cm_data param paramlen)) (paramlen + 1)
    (by omega)
  rw [hp] at ha ⊢
  simp only [cm_hdr_bytes, ne_eq, Nat.add_one_ne_zero, not_false_eq_true, if_true, htake]
    at ha ⊢
  refine ⟨by decide, by decide, by decide, ?_, ?_, ?_, ?_⟩
  · intro hm
    rw [ha, hm, if_pos rfl]
  · intro hm
    rw [ha, hm]
    simp
  · intro bytes n
    rcases alloc_xrc_params_cases E env bytes n with h | ⟨_, m, h⟩ | ⟨_, m, b, h⟩
    · left; rw [h]
    · left; rw [h]
    · right; rw [h]
  · intro hS hx hen hm
    obtain ⟨hV, h12, h1, h56, hmax⟩ := cm_data_size_values
    have hc : ¬ (ep.srqn = 0 ∧ env.fi_control_ret ≠ 0) := by
      rcases hen with h | h <;> simp [h]
    have hg : ¬ (paramlen > VERBS_CM_DATA_SIZE - sizeof_fi_ibv_xrc_cm_data) := by
      rw [hV, h12]; omega
    have hv : fi_ibv_msg_xrc_cm_common_verify E env ep paramlen =
        (E.FI_SUCCESS, if ep.srqn = 0 then [cm_call.fi_control_enable] else []) := by
      simp only [fi_ibv_msg_xrc_cm_common_verify, hx, hc, hg, if_false]
      simp
    have hmod : (paramlen + 1) % 18446744073709551616 = paramlen + 1 := by omega
    constructor
    · intro hcal
      simp only [fi_ibv_msg_xrc_ep_connect, hv, hS, ne_eq, not_true_eq_false, if_false,
        h1, hmax, hmod, hp, cm_hdr_bytes, ha, hm, if_true, hcal]
      by_cases h0 : ep.srqn = 0 <;> simp [h0, xrc_param_of]
    · simp only [fi_ibv_msg_xrc_ep_accept, hv, hS, ne_eq, not_true_eq_false, if_false,
        h1, hmax, hmod, hp, cm_hdr_bytes, ha, hm, if_true]
      by_cases h0 : ep.srqn = 0 <;> simp [h0, xrc_param_of]

/-- Claim C12, at a concrete input: rejecting the XRC request with three
parameter bytes passes 16 bytes, the header built from tag `0x00010001` and
port 4791 first. -/
theorem xrc_reject_reencodes_request_witness :
    (fi_ibv_msg_ep_reject linux cm_env_ok xrc_connreq [1, 2, 3] 3).2 =
      [cm_call.malloc 16,
       cm_call.rdma_reject
         (cm_buf.xrc { hdr := xrc_hdr.set 0 0x00010001 4791 0, body := [3, 1, 2, 3] }) 16,
       cm_call.free_cm_data, cm_call.free_connreq] :=
  (xrc_reject_reencodes_request linux cm_env_ok xrc_connreq [1, 2, 3] 3
    rfl rfl rfl (by decide) rfl).1

/-- Claim C13 as stated fails: rejecting an unconsumed XRC request with 55
parameter bytes returns `-FI_EINVAL`, not 0, although `55 ≤
VERBS_CM_DATA_SIZE` and `rdma_reject` and `malloc` would succeed. -/
theorem reject_once_counterexample :
    55 ≤ VERBS_CM_DATA_SIZE ∧ cm_env_ok.rdma_ret = 0 ∧ cm_env_ok.malloc_ok = true ∧
    xrc_connreq.is_xrc = true ∧
    (fi_ibv_msg_ep_reject linux cm_env_ok xrc_connreq (List.replicate 55 0) 55).1 = -22 := by
  decide

/-- Claim C13, at a concrete input: rejecting a non-XRC request with 55
parameter bytes returns 0. -/
theorem reject_once_succeeds_witness :
    (fi_ibv_msg_ep_reject linux cm_env_ok rc_connreq (List.replicate 55 0) 55).1 = 0 :=
  (reject_once_succeeds linux cm_env_ok rc_connreq (List.replicate 55 0) 55 rfl).1
    rfl (by decide)

/-- Claim C14, at a concrete input: when `fi_ibv_create_ep` fails the call
returns its error and the endpoint is as before. -/
theorem setname_atomic_on_error_witness :
    (fi_ibv_msg_ep_setname linux setname_env_create_fails ep_named [10, 0, 0, 2] 4).1 =
      -98 ∧
    (fi_ibv_msg_ep_setname linux setname_env_create_fails ep_named [10, 0, 0, 2] 4).2.1 =
      ep_named :=
  (setname_atomic_on_error linux setname_env_create_fails ep_named [10, 0, 0, 2]
    4).2.2.1 rfl (by decide) (by decide)

/-- Claim C15 as stated fails: `fi_ibv_eq_set_xrc_conn_tag` leaves
`VERBS_CONN_TAG_INVALID`, and the connect still calls `fi_ibv_connect_xrc`
and returns its 0. -/
theorem xrc_connect_tag_counterexample :
    cm_env_no_tag.conn_tag = VERBS_CONN_TAG_INVALID ∧
    fi_ibv_msg_xrc_ep_connect linux cm_env_no_tag xrc_ep_enabled [1, 2, 3] 3 =
      (0,
       { xrc_ep_enabled with conn_setup := some { conn_tag := VERBS_CONN_TAG_INVALID } },
       [cm_call.malloc 16, cm_call.calloc_conn_setup, cm_call.eq_lock_acquire,
        cm_call.fi_ibv_eq_set_xrc_conn_tag, cm_call.eq_lock_release,
        cm_call.fi_ibv_connect_xrc 0 { hdr := xrc_hdr.uninit, body := [3, 1, 2, 3] } 16,
        cm_call.free_cm_data]) := by
  decide

/-- Claim C15, at a concrete input: with no tag left the connect returns
what `fi_ibv_connect_xrc` returns and has passed it 16 bytes. -/
theorem xrc_connect_ignores_tag_witness :
    (fi_ibv_msg_xrc_ep_connect linux cm_env_no_tag xrc_ep_enabled [1, 2, 3] 3).1 = 0 ∧
    (fi_ibv_msg_xrc_ep_connect linux cm_env_no_tag xrc_ep_enabled [1, 2, 3]
      3).2.1.conn_setup = some { conn_tag := VERBS_CONN_TAG_INVALID } ∧
    (fi_ibv_msg_xrc_ep_connect linux cm_env_no_tag xrc_ep_enabled [1, 2, 3]
      3).2.2.filterMap xrc_paramlen = [16] :=
  (xrc_connect_ignores_tag linux cm_env_no_tag xrc_ep_enabled [1, 2, 3] 3
    rfl rfl (Or.inl (by decide)) (by decide)).1 rfl rfl

/-- Claim C18, at the Linux values: `EINVAL` and `-EINVAL` both give `-22`. -/
theorem handle_post_normalises_witness :
    fi_ibv_handle_post linux 0 22 = -22 ∧ fi_ibv_handle_post linux 0 (-22) = -22 :=
  (handle_post_normalises linux 0 22 (by decide) (by decide) (by decide)).2.2.2.2.2
    22 (by decide) (by decide) (by decide) (by decide)

/-- Claim C19, at a concrete input: in the drain-and-retry of the full send
queue the release comes right before the retried post. -/
theorem lock_released_before_retry_witness :
    ∃ mid : List verbs_call,
      new_calls state_three_unsignaled
          (fi_ibv_send_poll_cq_if_needed linux state_three_unsignaled).2 =
        verbs_call.post_send :: verbs_call.lock_acquire :: mid ++
          [verbs_call.lock_release, verbs_call.post_send] ∧
      ∀ c ∈ mid, is_lock_call c = false ∧ c ≠ verbs_call.post_send :=
  (lock_released_before_retry linux state_three_unsignaled).2 (by decide)

/-- Claim C20, at a concrete input: three parameter bytes give a buffer
with `3, 1, 2, 3` behind the header and a total length of 16. -/
theorem xrc_payload_layout_witness :
    fi_ibv_msg_alloc_xrc_params linux cm_env_ok
        (cm_hdr_bytes (fi_ibv_msg_ep_prepare_cm_data [1, 2, 3] 3)) 4 =
      (0, some { hdr := xrc_hdr.uninit, body := [3, 1, 2, 3] }, 16, [cm_call.malloc 16]) :=
  (xrc_payload_layout linux cm_env_ok xrc_ep_enabled [1, 2, 3] 3 rfl
    (by decide)).2.2.2.1 rfl

/-! ## Theorems, last part -/

/-- The first `n` bytes after `memcpy` are those of the source. -/
theorem memcpy_take (dst src : List Nat) (n : Nat) (h : n ≤ src.length) :
    (memcpy dst src n).take n = src.take n := by
  unfold memcpy
  exact List.take_left' (by rw [List.length_take]; omega)

/-- The bytes behind the first `n` are untouched by `memcpy`. -/
theorem memcpy_drop (dst src : List Nat) (n : Nat) (h : n ≤ src.length) :
    (memcpy dst src n).drop n = dst.drop n := by
  unfold memcpy
  exact List.drop_left' (by rw [List.length_take]; omega)

/-- The destination keeps its size under `memcpy`. -/
theorem memcpy_length (dst src : List Nat) (n : Nat) (hs : n ≤ src.length)
    (hd : n ≤ dst.length) : (memcpy dst src n).length = dst.length := by
  unfold memcpy
  rw [List.length_append, List.length_take, List.length_drop]
  omega

/-- Claim C21: for a source address whose length `fi_ibv_sockaddr_len` gives
as `L` (the address object holds these `L` bytes, the caller's buffer holds the
`n` bytes it announces, and `FI_ETOOSMALL` is not 0), `fi_ibv_copy_addr`
leaves `L` in `*dst_addrlen`; it returns `-FI_ETOOSMALL` exactly when `n` is 0,
and then makes no `memcpy` and leaves the buffer as it was; otherwise it
returns 0 after one `memcpy` of `min n L` bytes, after which the first
`min n L` bytes of the buffer are those of the source and every byte behind
them is as before.  The three callers hand it the local or the peer address
of the identifier. -/
theorem copy_addr_truncates (E : errno_h) (fi_ibv_sockaddr_len : List Nat → Int)
    (dst src : List Nat) (n L : Nat)
    (hE : E.FI_ETOOSMALL ≠ 0)
    (hL : fi_ibv_sockaddr_len src = (L : Int)) (hint : L < 2 ^ 31)
    (hsrc : L ≤ src.length) (hdst : n ≤ dst.length) :
    (fi_ibv_copy_addr E fi_ibv_sockaddr_len dst n src).2.2.1 = L ∧
    ((fi_ibv_copy_addr E fi_ibv_sockaddr_len dst n src).1 = -E.FI_ETOOSMALL ↔ n = 0) ∧
    (n = 0 →
      (fi_ibv_copy_addr E fi_ibv_sockaddr_len dst n src).2.1 = dst ∧
      (fi_ibv_copy_addr E fi_ibv_sockaddr_len dst n src).2.2.2 = []) ∧
    (n ≠ 0 →
      (fi_ibv_copy_addr E fi_ibv_sockaddr_len dst n src).1 = 0 ∧
      (fi_ibv_copy_addr E fi_ibv_sockaddr_len dst n src).2.2.2 = [min n L] ∧
      (fi_ibv_copy_addr E fi_ibv_sockaddr_len dst n src).2.1.take (min n L) =
        src.take (min n L) ∧
      (fi_ibv_copy_addr E fi_ibv_sockaddr_len dst n src).2.1.drop (min n L) =
        dst.drop (min n L) ∧
      (fi_ibv_copy_addr E fi_ibv_sockaddr_len dst n src).2.1.length = dst.length) ∧
    (∀ (a : rdma_addr) (addr : List Nat) (addrlen : Nat),
      fi_ibv_msg_ep_getname E fi_ibv_sockaddr_len a addr addrlen =
        fi_ibv_copy_addr E fi_ibv_sockaddr_len addr addrlen a.src_addr ∧
      fi_ibv_msg_ep_getpeer E fi_ibv_sockaddr_len a addr addrlen =
        fi_ibv_copy_addr E fi_ibv_sockaddr_len addr addrlen a.dst_addr ∧
      fi_ibv_pep_getname E fi_ibv_sockaddr_len a addr addrlen =
        fi_ibv_copy_addr E fi_ibv_sockaddr_len addr addrlen a.src_addr) := by
  have hlen : (fi_ibv_sockaddr_len src % (SIZE_MAX_succ : Int)).toNat = L := by
    rw [hL]
    have h64 : (L : Int) < (SIZE_MAX_succ : Int) := by
      have : L < SIZE_MAX_succ := by
        unfold SIZE_MAX_succ
        exact lt_trans hint (by norm_num)
      exact_mod_cast this
    rw [Int.emod_eq_of_lt (Int.natCast_nonneg L) h64]
    exact Int.toNat_natCast L
  refine ⟨?_, ?_, ?_, ?_, fun a addr addrlen => ⟨rfl, rfl, rfl⟩⟩
  · unfold fi_ibv_copy_addr
    simp only [hlen]
    split_ifs <;> rfl
  · unfold fi_ibv_copy_addr
    simp only [hlen]
    constructor
    · intro h
      by_contra hn
      rw [if_neg hn] at h
      have h0 : (0 : Int) = -E.FI_ETOOSMALL := by
        split_ifs at h <;> exact h
      exact hE (by omega)
    · intro h
      rw [if_pos h]
  · intro h
    unfold fi_ibv_copy_addr
    simp only [hlen]
    rw [if_pos h]
    exact ⟨rfl, rfl⟩
  · intro h
    unfold fi_ibv_copy_addr
    simp only [hlen]
    rw [if_neg h]
    by_cases hlt : n < L
    · rw [if_pos hlt]
      have hm : min n L = n := Nat.min_eq_left (le_of_lt hlt)
      rw [hm]
      exact ⟨rfl, rfl, memcpy_take dst src n (by omega), memcpy_drop dst src n (by omega),
        memcpy_length dst src n (by omega) hdst⟩
    · rw [if_neg hlt]
      have hm : min n L = L := Nat.min_eq_right (by omega)
      rw [hm]
      exact ⟨rfl, rfl, memcpy_take dst src L hsrc, memcpy_drop dst src L hsrc,
        memcpy_length dst src L hsrc (by omega)⟩

/-- What `fi_ibv_msg_ep_connect` hands to `rdma_connect`, whenever it calls
it: every field is given by the endpoint and the arguments, and `srq` is 1
with a shared receive queue and 0 without. -/
theorem connect_conn_param (E : errno_h) (R : rdma_cma_h) (env : cm_env)
    (ep : fi_ibv_ep) (param : List Nat) (paramlen : Nat) :
    (fi_ibv_msg_ep_connect E R env ep param paramlen).2.filterMap conn_param_of = [] ∨
    (fi_ibv_msg_ep_connect E R env ep param paramlen).2.filterMap conn_param_of =
      [{ private_data := some (cm_buf.hdr (fi_ibv_msg_ep_prepare_cm_data param paramlen)),
         private_data_len := some ((sizeof_fi_ibv_cm_data_hdr + paramlen) % 256),
         responder_resources := some R.RDMA_MAX_RESP_RES,
         initiator_depth := some R.RDMA_MAX_INIT_DEPTH,
         flow_control := some 1, retry_count := some 15, rnr_retry_count := some 7,
         srq := some (if ep.srq_ep then 1 else 0), qp_num := some 0 }] := by
  unfold fi_ibv_msg_ep_connect
  by_cases h1 : paramlen > VERBS_CM_DATA_SIZE
  · left
    rw [if_pos h1]
    rfl
  · rw [if_neg h1]
    by_cases h2 : (!ep.id_qp && decide (env.fi_control_ret ≠ 0)) = true
    · left
      rw [if_pos h2]
      rfl
    · right
      rw [if_neg h2]
      cases hq : ep.id_qp <;> cases hs : ep.srq_ep <;>
        simp [conn_param_of, fi_ibv_ep_prepare_rdma_cm_param, rdma_conn_param_zero]

/-- What `fi_ibv_msg_ep_accept` hands to `rdma_accept`, whenever it calls
it: `retry_count` and `qp_num` have not been written, and `srq` has been
written (with 1) only when the endpoint has a shared receive queue. -/
theorem accept_conn_param (E : errno_h) (R : rdma_cma_h) (env : cm_env)
    (ep : fi_ibv_ep) (param : List Nat) (paramlen : Nat) :
    (fi_ibv_msg_ep_accept E R env ep param paramlen).2.filterMap conn_param_of = [] ∨
    (fi_ibv_msg_ep_accept E R env ep param paramlen).2.filterMap conn_param_of =
      [{ private_data := some (cm_buf.hdr (fi_ibv_msg_ep_prepare_cm_data param paramlen)),
         private_data_len := some ((sizeof_fi_ibv_cm_data_hdr + paramlen) % 256),
         responder_resources := some R.RDMA_MAX_RESP_RES,
         initiator_depth := some R.RDMA_MAX_INIT_DEPTH,
         flow_control := some 1, retry_count := none, rnr_retry_count := some 7,
         srq := if ep.srq_ep then some 1 else none, qp_num := none }] := by
  unfold fi_ibv_msg_ep_accept
  by_cases h1 : paramlen > VERBS_CM_DATA_SIZE
  · left
    rw [if_pos h1]
    rfl
  · rw [if_neg h1]
    by_cases h2 : (!ep.id_qp && decide (env.fi_control_ret ≠ 0)) = true
    · left
      rw [if_pos h2]
      rfl
    · right
      rw [if_neg h2]
      by_cases h3 : env.rdma_ret ≠ 0
      · rw [if_pos h3]
        cases hq : ep.id_qp <;> cases hs : ep.srq_ep <;>
          simp [conn_param_of, fi_ibv_ep_prepare_rdma_cm_param, rdma_conn_param_uninit]
      · rw [if_neg h3]
        cases hq : ep.id_qp <;> cases hs : ep.srq_ep <;>
          simp [conn_param_of, fi_ibv_ep_prepare_rdma_cm_param, rdma_conn_param_uninit]

/-- Claim C21, at a concrete input: a 16-byte address copied into a buffer of
which 8 bytes are announced gives return value 0, length 16, the first 8
bytes of the address, and the two bytes behind them untouched. -/
theorem copy_addr_truncates_witness :
    (fi_ibv_copy_addr linux sockaddr_len_inet (List.replicate 10 9) 8
      sockaddr_local).2.2.1 = 16 ∧
    (fi_ibv_copy_addr linux sockaddr_len_inet (List.replicate 10 9) 8
      sockaddr_local).1 = 0 ∧
    (fi_ibv_copy_addr linux sockaddr_len_inet (List.replicate 10 9) 8
      sockaddr_local).2.2.2 = [8] ∧
    (fi_ibv_copy_addr linux sockaddr_len_inet (List.replicate 10 9) 8
      sockaddr_local).2.1.take 8 = [2, 0, 18, 183, 10, 0, 0, 1] ∧
    (fi_ibv_copy_addr linux sockaddr_len_inet (List.replicate 10 9) 8
      sockaddr_local).2.1.drop 8 = [9, 9] :=
  have h := copy_addr_truncates linux sockaddr_len_inet (List.replicate 10 9)
    sockaddr_local 8 16 (by decide) rfl (by decide) (by decide) (by decide)
  ⟨h.1, (h.2.2.2.1 (by decide)).1, (h.2.2.2.1 (by decide)).2.1,
    (h.2.2.2.1 (by decide)).2.2.1, (h.2.2.2.1 (by decide)).2.2.2.1⟩

/-- Claim C22 at the failing input: the drain polls one completion the
application asked for, the pool has no cache entry for it, and the drain
returns 0 with an empty cache; the completion is gone from the device and
no error is reported. -/
theorem drain_drops_completion_when_pool_exhausted :
    state_pool_exhausted.polls = [batch_reply [wc_signaled 7], { ret := 0, wc := [] }] ∧
    (wc_signaled 7).wr_id ≠ VERBS_NO_COMP_FLAG ∧
    (fi_ibv_wc_2_wce linux state_pool_exhausted (wc_signaled 7)).1 =
      some (-linux.FI_ENOMEM, none) ∧
    (fi_ibv_poll_reap_unsig_cq linux state_pool_exhausted).1 = some 0 ∧
    (fi_ibv_poll_reap_unsig_cq linux state_pool_exhausted).2.wcq = [] ∧
    (fi_ibv_poll_reap_unsig_cq linux state_pool_exhausted).2.polls = [] ∧
    new_calls state_pool_exhausted (fi_ibv_poll_reap_unsig_cq linux state_pool_exhausted).2 =
      [verbs_call.lock_acquire, verbs_call.poll_cq 10, verbs_call.buf_alloc,
       verbs_call.poll_cq 10, verbs_call.lock_release] := by
  decide

/-- Claim C23 at the failing input: on an enabled endpoint without shared
receive queue, `fi_ibv_msg_ep_accept` hands `rdma_accept` a parameter block in
which `srq`, `retry_count` and `qp_num` have never been written, while
`fi_ibv_msg_ep_connect` hands `rdma_connect` a block in which `srq` is 0. -/
theorem accept_hands_unwritten_srq :
    ep_enabled.srq_ep = false ∧
    fi_ibv_msg_ep_accept linux librdmacm cm_env_ok ep_enabled [1, 2, 3] 3 =
      (0,
       [cm_call.rdma_accept
          { private_data := some (cm_buf.hdr { size := 3, data := [1, 2, 3] }),
            private_data_len := some 4, responder_resources := some 255,
            initiator_depth := some 255, flow_control := some 1, retry_count := none,
            rnr_retry_count := some 7, srq := none, qp_num := none },
        cm_call.free_connreq]) ∧
    fi_ibv_msg_ep_connect linux librdmacm cm_env_ok ep_enabled [1, 2, 3] 3 =
      (0,
       [cm_call.rdma_connect
          { private_data := some (cm_buf.hdr { size := 3, data := [1, 2, 3] }),
            private_data_len := some 4, responder_resources := some 255,
            initiator_depth := some 255, flow_control := some 1, retry_count := some 15,
            rnr_retry_count := some 7, srq := some 0, qp_num := some 0 }]) := by
  decide

/-! ## Theorems on the failing paths of accept and XRC connect -/

/-- Claim C11, amended: `fi_ibv_msg_ep_accept` frees the connection request
if and only if `rdma_accept` is reached and returns 0; it then frees it once,
as its last call, right after `rdma_accept`, and returns 0.  On the failing
paths the request is not freed: `paramlen > 55` gives `-FI_EINVAL` without
any call, a failed enable gives the value of `fi_control`, a failed
`rdma_accept` gives `-errno`.  With a non-zero `FI_EINVAL` the call returns 0
without freeing the request exactly when `rdma_accept` fails and leaves
`errno` at 0; when a failing `rdma_accept` sets `errno`, the request is freed
if and only if the call returns 0. -/
theorem accept_frees_after_rdma_accept (E : errno_h) (R : rdma_cma_h) (env : cm_env)
    (ep : fi_ibv_ep) (param : List Nat) (paramlen : Nat) :
    (fi_ibv_msg_ep_accept E R env ep param paramlen).2.count cm_call.free_connreq ≤ 1 ∧
    (cm_call.free_connreq ∈ (fi_ibv_msg_ep_accept E R env ep param paramlen).2 ↔
      paramlen ≤ 55 ∧ (ep.id_qp = true ∨ env.fi_control_ret = 0) ∧ env.rdma_ret = 0) ∧
    (cm_call.free_connreq ∈ (fi_ibv_msg_ep_accept E R env ep param paramlen).2 →
      (fi_ibv_msg_ep_accept E R env ep param paramlen).1 = 0 ∧
      (fi_ibv_msg_ep_accept E R env ep param paramlen).2.getLast? =
        some cm_call.free_connreq) ∧
    (paramlen ≤ 55 → (ep.id_qp = true ∨ env.fi_control_ret = 0) → env.rdma_ret = 0 →
      fi_ibv_msg_ep_accept E R env ep param paramlen =
        (0, (if ep.id_qp then [] else [cm_call.fi_control_enable]) ++
          [cm_call.rdma_accept
            (if ep.srq_ep then
              { fi_ibv_ep_prepare_rdma_cm_param R rdma_conn_param_uninit
                  (fi_ibv_msg_ep_prepare_cm_data param paramlen)
                  (sizeof_fi_ibv_cm_data_hdr + paramlen) with srq := some 1 }
             else
              fi_ibv_ep_prepare_rdma_cm_param R rdma_conn_param_uninit
                  (fi_ibv_msg_ep_prepare_cm_data param paramlen)
                  (sizeof_fi_ibv_cm_data_hdr + paramlen)),
           cm_call.free_connreq])) ∧
    (55 < paramlen →
      fi_ibv_msg_ep_accept E R env ep param paramlen = (-E.FI_EINVAL, [])) ∧
    (paramlen ≤ 55 → ep.id_qp = false → env.fi_control_ret ≠ 0 →
      fi_ibv_msg_ep_accept E R env ep param paramlen =
        (env.fi_control_ret, [cm_call.fi_control_enable])) ∧
    (paramlen ≤ 55 → (ep.id_qp = true ∨ env.fi_control_ret = 0) → env.rdma_ret ≠ 0 →
      fi_ibv_msg_ep_accept E R env ep param paramlen =
        (-env.errno, (if ep.id_qp then [] else [cm_call.fi_control_enable]) ++
          [cm_call.rdma_accept
            (if ep.srq_ep then
              { fi_ibv_ep_prepare_rdma_cm_param R rdma_conn_param_uninit
                  (fi_ibv_msg_ep_prepare_cm_data param paramlen)
                  (sizeof_fi_ibv_cm_data_hdr + paramlen) with srq := some 1 }
             else
              fi_ibv_ep_prepare_rdma_cm_param R rdma_conn_param_uninit
                  (fi_ibv_msg_ep_prepare_cm_data param paramlen)
                  (sizeof_fi_ibv_cm_data_hdr + paramlen))])) ∧
    (E.FI_EINVAL ≠ 0 →
      ((fi_ibv_msg_ep_accept E R env ep param paramlen).1 = 0 ∧
        cm_call.free_connreq ∉ (fi_ibv_msg_ep_accept E R env ep param paramlen).2 ↔
       paramlen ≤ 55 ∧ (ep.id_qp = true ∨ env.fi_control_ret = 0) ∧
        env.rdma_ret ≠ 0 ∧ env.errno = 0)) ∧
    (E.FI_EINVAL ≠ 0 → (env.rdma_ret ≠ 0 → env.errno ≠ 0) →
      ((fi_ibv_msg_ep_accept E R env ep param paramlen).1 = 0 ↔
        cm_call.free_connreq ∈ (fi_ibv_msg_ep_accept E R env ep param paramlen).2)) := by
  obtain ⟨h55, _, _, _, _⟩ := cm_data_size_values
  by_cases hp : 55 < paramlen
  · have hv : fi_ibv_msg_ep_accept E R env ep param paramlen = (-E.FI_EINVAL, []) := by
      simp [fi_ibv_msg_ep_accept, h55, hp]
    rw [hv]
    refine ⟨by simp, ?_, by simp, fun h => by omega, fun _ => rfl, fun h => by omega,
      fun h => by omega, ?_, ?_⟩
    · constructor
      · intro h; simp at h
      · rintro ⟨h, _⟩; omega
    · intro hE
      constructor
      · rintro ⟨h0, _⟩
        simp only at h0
        exact absurd (by omega) hE
      · rintro ⟨h, _⟩; omega
    · intro hE _
      simp [hE]
  · have hn : ¬ (paramlen > 55) := hp
    have hle : paramlen ≤ 55 := by omega
    by_cases hen : ep.id_qp = false ∧ env.fi_control_ret ≠ 0
    · obtain ⟨hq, hc⟩ := hen
      have hv : fi_ibv_msg_ep_accept E R env ep param paramlen =
          (env.fi_control_ret, [cm_call.fi_control_enable]) := by
        simp [fi_ibv_msg_ep_accept, h55, hn, hq, hc]
      have hno : ¬ (ep.id_qp = true ∨ env.fi_control_ret = 0) := by
        rintro (h | h)
        · rw [hq] at h; exact absurd h (by decide)
        · exact hc h
      rw [hv]
      refine ⟨by simp, ?_, by simp, fun _ h _ => absurd h hno, fun h => absurd h hp,
        fun _ _ _ => rfl, fun _ h _ => absurd h hno, ?_, ?_⟩
      · constructor
        · intro h; simp at h
        · rintro ⟨_, h, _⟩; exact absurd h hno
      · intro _
        constructor
        · rintro ⟨h0, _⟩
          exact absurd h0 hc
        · rintro ⟨_, h, _⟩; exact absurd h hno
      · intro _ _
        simp [hc]
    · have hg : (!ep.id_qp && decide (env.fi_control_ret ≠ 0)) = false := by
        cases hq : ep.id_qp
        · have : env.fi_control_ret = 0 := by
            by_contra hc
            exact hen ⟨hq, hc⟩
          simp [this]
        · simp
      have hyes : ep.id_qp = true ∨ env.fi_control_ret = 0 := by
        cases hq : ep.id_qp
        · right
          by_contra hc
          exact hen ⟨hq, hc⟩
        · left; rfl
      by_cases hr : env.rdma_ret = 0
      · have hv : fi_ibv_msg_ep_accept E R env ep param paramlen =
            (0, (if ep.id_qp then [] else [cm_call.fi_control_enable]) ++
              [cm_call.rdma_accept
                (if ep.srq_ep then
                  { fi_ibv_ep_prepare_rdma_cm_param R rdma_conn_param_uninit
                      (fi_ibv_msg_ep_prepare_cm_data param paramlen)
                      (sizeof_fi_ibv_cm_data_hdr + paramlen) with srq := some 1 }
                 else
                  fi_ibv_ep_prepare_rdma_cm_param R rdma_conn_param_uninit
                      (fi_ibv_msg_ep_prepare_cm_data param paramlen)
                      (sizeof_fi_ibv_cm_data_hdr + paramlen)),
               cm_call.free_connreq]) := by
          simp only [fi_ibv_msg_ep_accept, h55, hn, if_false, hg, hr, ne_eq,
            not_true_eq_false]
          simp
        have hin : cm_call.free_connreq ∈
            (if ep.id_qp then [] else [cm_call.fi_control_enable]) ++
              [cm_call.rdma_accept
                (if ep.srq_ep then
                  { fi_ibv_ep_prepare_rdma_cm_param R rdma_conn_param_uninit
                      (fi_ibv_msg_ep_prepare_cm_data param paramlen)
                      (sizeof_fi_ibv_cm_data_hdr + paramlen) with srq := some 1 }
                 else
                  fi_ibv_ep_prepare_rdma_cm_param R rdma_conn_param_uninit
                      (fi_ibv_msg_ep_prepare_cm_data param paramlen)
                      (sizeof_fi_ibv_cm_data_hdr + paramlen)),
               cm_call.free_connreq] := by
          simp
        rw [hv]
        refine ⟨?_, ?_, ?_, fun _ _ _ => rfl, fun h => absurd h hp, ?_,
          fun _ _ h => absurd hr h, ?_, ?_⟩
        · cases ep.id_qp <;> simp [List.count_cons]
        · exact ⟨fun _ => ⟨hle, hyes, hr⟩, fun _ => hin⟩
        · intro _
          refine ⟨rfl, ?_⟩
          cases ep.id_qp <;> simp
        · intro _ hq hc
          exact absurd ⟨hq, hc⟩ hen
        · intro _
          constructor
          · rintro ⟨_, h⟩
            exact absurd hin h
          · rintro ⟨_, _, h, _⟩
            exact absurd hr h
        · intro _ _
          exact ⟨fun _ => hin, fun _ => rfl⟩
      · have hv : fi_ibv_msg_ep_accept E R env ep param paramlen =
            (-env.errno, (if ep.id_qp then [] else [cm_call.fi_control_enable]) ++
              [cm_call.rdma_accept
                (if ep.srq_ep then
                  { fi_ibv_ep_prepare_rdma_cm_param R rdma_conn_param_uninit
                      (fi_ibv_msg_ep_prepare_cm_data param paramlen)
                      (sizeof_fi_ibv_cm_data_hdr + paramlen) with srq := some 1 }
                 else
                  fi_ibv_ep_prepare_rdma_cm_param R rdma_conn_param_uninit
                      (fi_ibv_msg_ep_prepare_cm_data param paramlen)
                      (sizeof_fi_ibv_cm_data_hdr + paramlen))]) := by
          simp only [fi_ibv_msg_ep_accept, h55, hn, if_false, hg, hr, ne_eq,
            not_false_eq_true, if_true]
          simp
        have hnot : cm_call.free_connreq ∉
            (if ep.id_qp then [] else [cm_call.fi_control_enable]) ++
              [cm_call.rdma_accept
                (if ep.srq_ep then
                  { fi_ibv_ep_prepare_rdma_cm_param R rdma_conn_param_uninit
                      (fi_ibv_msg_ep_prepare_cm_data param paramlen)
                      (sizeof_fi_ibv_cm_data_hdr + paramlen) with srq := some 1 }
                 else
                  fi_ibv_ep_prepare_rdma_cm_param R rdma_conn_param_uninit
                      (fi_ibv_msg_ep_prepare_cm_data param paramlen)
                      (sizeof_fi_ibv_cm_data_hdr + paramlen))] := by
          cases ep.id_qp <;> simp
        rw [hv]
        refine ⟨?_, ?_, ?_, fun _ _ h => absurd h hr, fun h => absurd h hp, ?_,
          fun _ _ _ => rfl, ?_, ?_⟩
        · rw [List.count_eq_zero.mpr hnot]; omega
        · constructor
          · intro h; exact absurd h hnot
          · rintro ⟨_, _, h⟩; exact absurd h hr
        · intro h; exact absurd h hnot
        · intro _ hq hc
          exact absurd ⟨hq, hc⟩ hen
        · intro _
          constructor
          · rintro ⟨h0, _⟩
            simp only at h0
            exact ⟨hle, hyes, hr, by omega⟩
          · rintro ⟨_, _, _, h0⟩
            refine ⟨?_, hnot⟩
            simp only [h0]
            rfl
        · intro _ herr
          constructor
          · intro h0
            have := herr hr
            simp only at h0
            omega
          · intro h; exact absurd h hnot

/-- Claim C11 as stated fails: `rdma_accept` fails and leaves `errno` at 0;
the call returns 0 and the request has not been freed. -/
theorem accept_zero_without_free_counterexample :
    ¬ ((fi_ibv_msg_ep_accept linux librdmacm cm_env_rdma_fails_errno_zero ep_enabled
          [1, 2, 3] 3).1 = 0 ↔
        cm_call.free_connreq ∈
          (fi_ibv_msg_ep_accept linux librdmacm cm_env_rdma_fails_errno_zero ep_enabled
            [1, 2, 3] 3).2) := by
  decide

/-- Claim C11, at two concrete inputs: when `rdma_accept` succeeds on an
enabled endpoint the call returns 0 and its calls are `rdma_accept`, then the
free of the request; when `rdma_accept` fails with `ECONNREFUSED` the call
returns `-111` and the request is not freed. -/
theorem accept_frees_after_rdma_accept_witness :
    fi_ibv_msg_ep_accept linux librdmacm cm_env_ok ep_enabled [1, 2, 3] 3 =
      (0,
       [cm_call.rdma_accept
          { private_data := some (cm_buf.hdr { size := 3, data := [1, 2, 3] }),
            private_data_len := some 4, responder_resources := some 255,
            initiator_depth := some 255, flow_control := some 1, retry_count := none,
            rnr_retry_count := some 7, srq := none, qp_num := none },
        cm_call.free_connreq]) ∧
    (fi_ibv_msg_ep_accept linux librdmacm cm_env_rdma_fails ep_enabled [1, 2, 3] 3).1 =
      -111 ∧
    ¬ (cm_call.free_connreq ∈
      (fi_ibv_msg_ep_accept linux librdmacm cm_env_rdma_fails ep_enabled [1, 2, 3] 3).2) :=
  ⟨(accept_frees_after_rdma_accept linux librdmacm cm_env_ok ep_enabled [1, 2, 3]
      3).2.2.2.1 (by decide) (Or.inl rfl) rfl,
   congrArg Prod.fst
     ((accept_frees_after_rdma_accept linux librdmacm cm_env_rdma_fails ep_enabled
       [1, 2, 3] 3).2.2.2.2.2.2.1 (by decide) (Or.inl rfl) (by decide)),
   fun h =>
     absurd
       ((accept_frees_after_rdma_accept linux librdmacm cm_env_rdma_fails ep_enabled
         [1, 2, 3] 3).2.1.mp h).2.2
       (by decide)⟩

end Verbs
